import Mathlib

/-!
Verification development for the PTBudgetBuster orchestration server.

The Python sources under src/backend (session_manager.py, agent.py, main.py,
schedule_manager.py) and src/scripts/tool_server.py are shallowly embedded
below.  Strings are modelled as lists of characters (`Str`), Python regex
substitutions as executable left-to-right scanners that reproduce the
behaviour of the concrete patterns appearing in the source, JSON-like values
as the inductive `Obj`, and each stateful routine as an explicit function
from states to states together with its observable effects (events appended,
broadcasts emitted, HTTP requests posted).  Nondeterministic inputs of the
real system (clocks, uuids, subprocess results, HTTP responses) are passed
in as explicit parameters or oracle records.
-/

set_option maxRecDepth 10000

/-- Python strings are modelled as lists of characters. -/
abbrev Str := List Char

/-- ASCII whitespace recognised by Python regular-expression class \s
and by str.strip (space, tab, newline, carriage return, vertical tab,
form feed). -/
def pySpace (c : Char) : Bool :=
  c = ' ' ∨ c = '\t' ∨ c = '\n' ∨ c = '\r' ∨ c = Char.ofNat 11 ∨ c = Char.ofNat 12

/-- Regex word character \w (ASCII): letters, digits, underscore. -/
def isWordC (c : Char) : Bool :=
  c.isAlphanum ∨ c = '_'

/-- Wordness of an optional character; the absent char (string edge) is
not a word character.  Used for word boundaries \b. -/
def optWord : Option Char → Bool
  | none => false
  | some c => isWordC c

/-- A \b word boundary holds between two (optional) characters iff exactly
one of the two sides is a word character. -/
def bdry (a b : Option Char) : Bool :=
  optWord a != optWord b

/-- Case-insensitive character comparison (ASCII lowering, as Python
re.IGNORECASE behaves on ASCII patterns). -/
def ciEq (a b : Char) : Bool :=
  a.toLower = b.toLower

/-- Case-insensitive prefix test of a pattern against a string. -/
def ciIsPrefix : Str → Str → Bool
  | [], _ => true
  | _ :: _, [] => false
  | p :: ps, c :: cs => ciEq p c && ciIsPrefix ps cs

/-- Substring occurrence test: does `pat` occur contiguously in `s`?
(The empty pattern occurs everywhere, as for Python `in`.) -/
def occursB (pat : Str) : Str → Bool
  | [] => pat.isEmpty
  | c :: cs => pat.isPrefixOf (c :: cs) || occursB pat cs

/-- One fuel-indexed pass of Python str.replace: scan left to right,
replace every non-overlapping occurrence of `pat` by `r`.  The fuel is
an upper bound on the number of scan steps; `s.length` always suffices
because every step consumes at least one character of `s`. -/
def replaceAllAux (pat r : Str) : Nat → Str → Str
  | _, [] => []
  | 0, s => s
  | Nat.succ f, c :: cs =>
      if pat ≠ [] ∧ pat.isPrefixOf (c :: cs) then
        r ++ replaceAllAux pat r f (List.drop pat.length (c :: cs))
      else
        c :: replaceAllAux pat r f cs

/-- Python `text.replace(pat, r)` (all occurrences, left to right,
non-overlapping), as used by `Session.detokenize`. -/
def replaceAll (pat r s : Str) : Str :=
  replaceAllAux pat r s.length s

theorem isPrefixOf_self (l : Str) : l.isPrefixOf l = true := by
  induction l with
  | nil => rfl
  | cons c cs ih => simp [List.isPrefixOf, ih]

theorem occursB_self {p : Str} (h : p ≠ []) : occursB p p = true := by
  cases p with
  | nil => exact absurd rfl h
  | cons c cs => simp [occursB, isPrefixOf_self]

theorem replaceAllAux_of_not_occurs {pat r : Str} :
    ∀ (f : Nat) (s : Str), s.length ≤ f → occursB pat s = false →
      replaceAllAux pat r f s = s := by
  intro f
  induction f with
  | zero =>
      intro s hs _
      cases s with
      | nil => rfl
      | cons c cs => simp at hs
  | succ f ih =>
      intro s hs hocc
      cases s with
      | nil => rfl
      | cons c cs =>
          have hnp : pat.isPrefixOf (c :: cs) = false := by
            by_contra hne
            have : pat.isPrefixOf (c :: cs) = true := by
              cases hpc : pat.isPrefixOf (c :: cs) with
              | true => rfl
              | false => exact absurd hpc hne
            simp [occursB, this] at hocc
          have hocc' : occursB pat cs = false := by
            simp [occursB, hnp] at hocc
            exact hocc
          have hlen : cs.length ≤ f := Nat.le_of_succ_le_succ hs
          simp [replaceAllAux, hnp, ih cs hlen hocc']

theorem replaceAll_of_not_occurs {pat r s : Str} (h : occursB pat s = false) :
    replaceAll pat r s = s :=
  replaceAllAux_of_not_occurs s.length s (Nat.le_refl _) h

theorem replaceAll_self {pat : Str} (r : Str) (h : pat ≠ []) :
    replaceAll pat r pat = r := by
  cases pat with
  | nil => exact absurd rfl h
  | cons c cs =>
      show replaceAllAux (c :: cs) r (c :: cs).length (c :: cs) = r
      simp [replaceAllAux, isPrefixOf_self, List.drop_length]

/-- The per-session credential vault: the insertion-ordered pairs of
`Session._token_store` (token string, real value). -/
abbrev Vault := List (Str × Str)

/-- `Session.detokenize`: substitute each vault token back to its real
value, iterating the store in insertion order
(`for token, value in self._token_store.items(): text = text.replace(token, value)`). -/
def detokenize (store : Vault) (text : Str) : Str :=
  store.foldl (fun t p => replaceAll p.1 p.2 t) text

theorem detokenize_append (a b : Vault) (s : Str) :
    detokenize (a ++ b) s = detokenize b (detokenize a s) := by
  simp [detokenize, List.foldl_append]

theorem detokenize_of_not_occurs :
    ∀ (v : Vault) (s : Str), (∀ p ∈ v, occursB p.1 s = false) →
      detokenize v s = s := by
  intro v
  induction v with
  | nil => intro s _; rfl
  | cons p ps ih =>
      intro s h
      have h1 : occursB p.1 s = false := h p (List.mem_cons_self p ps)
      have hstep : replaceAll p.1 p.2 s = s := replaceAll_of_not_occurs h1
      show detokenize ps (replaceAll p.1 p.2 s) = s
      rw [hstep]
      exact ih s (fun q hq => h q (List.mem_cons_of_mem p hq))

/-! ## JSON-like values

Python values handled by `Session.detokenize_obj` and by the tool-call
plumbing (dicts, lists, strings, numbers, booleans, None).  A mutual
inductive keeps all recursion structural so proofs and evaluation reduce
in the kernel. -/

mutual

inductive Obj where
  | str (s : Str)
  | num (n : Int)
  | boolean (b : Bool)
  | null
  | arr (l : ObjList)
  | dict (l : ObjDict)

inductive ObjList where
  | nil
  | cons (hd : Obj) (tl : ObjList)

inductive ObjDict where
  | nil
  | cons (k : Str) (v : Obj) (tl : ObjDict)

end

/-- Python dict lookup `d[k]` / `d.get(k)`: first (unique) matching key. -/
def dictGet (k : Str) : ObjDict → Option Obj
  | ObjDict.nil => none
  | ObjDict.cons k' v tl => if k = k' then some v else dictGet k tl

/-- Python dict membership `k in d`. -/
def dictMem (k : Str) : ObjDict → Bool
  | ObjDict.nil => false
  | ObjDict.cons k' _ tl => k = k' || dictMem k tl

/-- Python `d.get(k, default)`. -/
def dictGetD (k : Str) (default : Obj) (d : ObjDict) : Obj :=
  match dictGet k d with
  | some v => v
  | none => default

/-- Python dict-literal update `{**d, k: v}`: if `k` is present its value
is replaced in place, otherwise the pair is appended. -/
def dictSet (k : Str) (v : Obj) : ObjDict → ObjDict
  | ObjDict.nil => ObjDict.cons k v ObjDict.nil
  | ObjDict.cons k' v' tl =>
      if k = k' then ObjDict.cons k' v tl else ObjDict.cons k' v' (dictSet k v tl)

mutual

/-- `Session.detokenize_obj`: recursively detokenize strings inside a
dict, list, or str; other values are returned unchanged.  Dict keys are
left untouched (the source maps only the values). -/
def detokenize_obj (store : Vault) : Obj → Obj
  | Obj.str s => Obj.str (detokenize store s)
  | Obj.dict d => Obj.dict (detokenizeDict store d)
  | Obj.arr l => Obj.arr (detokenizeList store l)
  | o => o

def detokenizeList (store : Vault) : ObjList → ObjList
  | ObjList.nil => ObjList.nil
  | ObjList.cons h t => ObjList.cons (detokenize_obj store h) (detokenizeList store t)

def detokenizeDict (store : Vault) : ObjDict → ObjDict
  | ObjDict.nil => ObjDict.nil
  | ObjDict.cons k v t => ObjDict.cons k (detokenize_obj store v) (detokenizeDict store t)

end

mutual

/-- Does `pat` occur as a substring of some string value (leaf) of the
object?  This is the sense in which a tool-call parameter map "contains"
a token or credential. -/
def occursObj (pat : Str) : Obj → Bool
  | Obj.str s => occursB pat s
  | Obj.dict d => occursDict pat d
  | Obj.arr l => occursList pat l
  | _ => false

def occursList (pat : Str) : ObjList → Bool
  | ObjList.nil => false
  | ObjList.cons h t => occursObj pat h || occursList pat t

def occursDict (pat : Str) : ObjDict → Bool
  | ObjDict.nil => false
  | ObjDict.cons _ v t => occursObj pat v || occursDict pat t

end

/-! ## Ingress tokenizer (`Session.tokenize_input`)

The five substitution stages of the source are embedded as executable
left-to-right scanners, each reproducing the concrete regular expression
it implements (including greediness, ordered alternation, negative
lookahead and \b word boundaries for the specific patterns involved). -/

/-- Tokenizer state: `Session._token_store` and `Session._token_counter`. -/
structure TkState where
  store : Vault
  counter : Nat
deriving DecidableEq

def tkHead : Str := "[[_CRED_".toList

def tkTail : Str := "_]]".toList

def brk2 : Str := "[[".toList

def close2 : Str := "]]".toList

def credMid : Str := "_CRED_".toList

/-- Decimal rendering of a counter value. -/
def natDigits (n : Nat) : Str := (Nat.repr n).toList

/-- The token minted for counter value `n`. -/
def mkToken (n : Nat) : Str := tkHead ++ natDigits n ++ tkTail

/-- `next_token` plus the vault insertion: bump the counter, mint the
token string, append the (token, value) pair to the store. -/
def mint (st : TkState) (v : Str) : Str × TkState :=
  let n := st.counter + 1
  let tk := mkToken n
  (tk, ⟨st.store ++ [(tk, v)], n⟩)

/-- Generic re.sub driver (stateful replacement): scan left to right;
at each position run the matcher; on a (non-empty) match emit the
replacement and resume after the consumed characters, otherwise copy one
character.  `prev` carries the previous character of the original text
for \b word-boundary tests.  Fuel `s.length` suffices since every step
consumes at least one character. -/
def subScanSt {σ : Type} (m : Option Char → Str → σ → Option (Nat × Str × σ)) :
    Nat → Option Char → Str → σ → Str × σ
  | _, _, [], st => ([], st)
  | 0, _, s, st => (s, st)
  | Nat.succ f, prev, c :: cs, st =>
      match m prev (c :: cs) st with
      | some (Nat.succ n, repl, st') =>
          let prev' := match (List.take (Nat.succ n) (c :: cs)).getLast? with
            | some c' => some c'
            | none => some c
          let r := subScanSt m f prev' (List.drop (Nat.succ n) (c :: cs)) st'
          (repl ++ r.1, r.2)
      | _ =>
          let r := subScanSt m f (some c) cs st
          (c :: r.1, r.2)

/-- One full re.sub pass over a text. -/
def runSubSt {σ : Type} (m : Option Char → Str → σ → Option (Nat × Str × σ))
    (text : Str) (st : σ) : Str × σ :=
  subScanSt m text.length none text st

/-- Negative-lookahead body of the explicit-span rule: does the text
right after an opening bracket pair look like a minted token
(`_CRED_` digits `_]]`)? -/
def isCredShape (r : Str) : Bool :=
  credMid.isPrefixOf r &&
  (let ds := List.takeWhile Char.isDigit (List.drop 6 r)
   !ds.isEmpty && tkTail.isPrefixOf (List.drop (6 + ds.length) r))

/-- Stage 1 matcher — explicit user marking
`\[\[(?!_CRED_\d+_\]\])([^\[\]]+)\]\]`: vault the inner text and replace
the whole span by a fresh token. -/
def m_explicit (_prev : Option Char) (s : Str) (st : TkState) :
    Option (Nat × Str × TkState) :=
  if brk2.isPrefixOf s then
    let rest := List.drop 2 s
    if isCredShape rest then none
    else
      let body := List.takeWhile (fun c => !(c == '[' || c == ']')) rest
      if body = [] then none
      else if close2.isPrefixOf (List.drop body.length rest) then
        let p := mint st body
        some (2 + body.length + 2, p.1, p.2)
      else none
  else none

def tryCI (w s : Str) : Option Nat :=
  if ciIsPrefix w s then some w.length else none

def pwKeyL : Str := "password".toList

def passwdL : Str := "passwd".toList

def pwdL : Str := "pwd".toList

def secretL : Str := "secret".toList

def tokenKeyL : Str := "token".toList

def apiL : Str := "api".toList

def keyWordL : Str := "key".toList

def authWordL : Str := "auth".toList

/-- The ordered alternation
`password|passwd|pwd|secret|token|api[_-]?key|auth[_-]?key`
(IGNORECASE): length of the key matched at the start of `s`. -/
def matchKeyAlt (s : Str) : Option Nat :=
  tryCI pwKeyL s <|> tryCI passwdL s <|> tryCI pwdL s <|>
  tryCI secretL s <|> tryCI tokenKeyL s <|>
  (if ciIsPrefix apiL s then
    (match (List.drop 3 s).head? with
     | some c =>
         if (c == '_' || c == '-') && ciIsPrefix keyWordL (List.drop 4 s) then some 7
         else if ciIsPrefix keyWordL (List.drop 3 s) then some 6
         else none
     | none => none)
   else none) <|>
  (if ciIsPrefix authWordL s then
    (match (List.drop 4 s).head? with
     | some c =>
         if (c == '_' || c == '-') && ciIsPrefix keyWordL (List.drop 5 s) then some 8
         else if ciIsPrefix keyWordL (List.drop 4 s) then some 7
         else none
     | none => none)
   else none)

/-- Stage 2 matcher — credential key/value pairs
`(password|passwd|pwd|secret|token|api[_-]?key|auth[_-]?key)\s*[=:]\s*(\S+)`
(IGNORECASE): vault the value, emit `key=token` (the separator is
normalised to `=` by the replacement f-string). -/
def m_kv (_prev : Option Char) (s : Str) (st : TkState) :
    Option (Nat × Str × TkState) :=
  match matchKeyAlt s with
  | none => none
  | some kl =>
      let r1 := List.drop kl s
      let w1 := List.takeWhile pySpace r1
      let r2 := List.drop w1.length r1
      match r2 with
      | [] => none
      | c :: r3 =>
          if c == '=' || c == ':' then
            let w2 := List.takeWhile pySpace r3
            let r4 := List.drop w2.length r3
            let v := List.takeWhile (fun ch => !pySpace ch) r4
            if v = [] then none
            else
              let p := mint st v
              some (kl + w1.length + 1 + w2.length + v.length,
                    List.take kl s ++ '=' :: p.1, p.2)
          else none

def httpsL : Str := "https://".toList

def httpL : Str := "http://".toList

/-- Stage 3 matcher — URL-embedded credentials
`(https?://)([^:@/\s]+):([^@/\s]+)@([^\s/]+)`: vault the password
component, keep scheme, user and host. -/
def m_url (_prev : Option Char) (s : Str) (st : TkState) :
    Option (Nat × Str × TkState) :=
  let sl : Option Nat :=
    if httpsL.isPrefixOf s then some 8
    else if httpL.isPrefixOf s then some 7
    else none
  match sl with
  | none => none
  | some sl =>
      let r1 := List.drop sl s
      let user := List.takeWhile (fun c => !(c == ':' || c == '@' || c == '/' || pySpace c)) r1
      if user = [] then none
      else
        match List.drop user.length r1 with
        | ':' :: r3 =>
            let pw := List.takeWhile (fun c => !(c == '@' || c == '/' || pySpace c)) r3
            if pw = [] then none
            else
              match List.drop pw.length r3 with
              | '@' :: r4 =>
                  let host := List.takeWhile (fun c => !(pySpace c || c == '/')) r4
                  if host = [] then none
                  else
                    let p := mint st pw
                    some (sl + user.length + 1 + pw.length + 1 + host.length,
                          List.take sl s ++ user ++ ':' :: p.1 ++ '@' :: host, p.2)
              | _ => none
        | _ => none

def authHdrL : Str := "authorization:".toList

def bearerL : Str := "bearer".toList

def basicL : Str := "basic".toList

def digestL : Str := "digest".toList

def apikeyL : Str := "apikey".toList

/-- Ordered alternation `Bearer|Token|Basic|Digest|ApiKey` (IGNORECASE). -/
def authSchemeLen (s : Str) : Option Nat :=
  tryCI bearerL s <|> tryCI tokenKeyL s <|> tryCI basicL s <|>
  tryCI digestL s <|> tryCI apikeyL s

/-- Stage 4 matcher — Authorization headers
`(Authorization:\s*(?:Bearer|Token|Basic|Digest|ApiKey)\s+)(\S+)`
(IGNORECASE): vault the header value, keep the prefix. -/
def m_auth (_prev : Option Char) (s : Str) (st : TkState) :
    Option (Nat × Str × TkState) :=
  if ciIsPrefix authHdrL s then
    let r1 := List.drop 14 s
    let w1 := List.takeWhile pySpace r1
    let r2 := List.drop w1.length r1
    match authSchemeLen r2 with
    | none => none
    | some schl =>
        let r3 := List.drop schl r2
        let w2 := List.takeWhile pySpace r3
        if w2 = [] then none
        else
          let r4 := List.drop w2.length r3
          let v := List.takeWhile (fun c => !pySpace c) r4
          if v = [] then none
          else
            let plen := 14 + w1.length + schl + w2.length
            let p := mint st v
            some (plen + v.length, List.take plen s ++ p.1, p.2)
  else none

/-! Stage 5 — known API-key shapes.  Each of the seven patterns is a
separate re.sub pass; their shared pieces (character-class runs followed
by a \b boundary, with regex backtracking over the run length) live in
`runBdryLen`. -/

/-- Character class `[A-Za-z0-9_\-]` (JWT segments, GitLab and OpenAI
key bodies). -/
def clsWordHy (c : Char) : Bool :=
  c.isAlphanum || c == '_' || c == '-'

/-- Character class `[A-Za-z0-9\-]` (Slack key bodies). -/
def clsAlnumHy (c : Char) : Bool :=
  c.isAlphanum || c == '-'

/-- Backtracking over the length of a greedy class run that must be
followed by a \b boundary: try the maximal run first, then shorter
lengths down to `minLen`; the first length whose boundary test succeeds
wins.  `r` is the maximal run, `after` the first character beyond it. -/
def shrinkB (r : Str) (after : Option Char) (minLen : Nat) : Nat → Option Nat
  | 0 => none
  | Nat.succ k =>
      if Nat.succ k < minLen then none
      else
        match List.get? r k with
        | none => shrinkB r after minLen k
        | some lastC =>
            let nxt : Option Char :=
              match List.get? r (k + 1) with
              | some c2 => some c2
              | none => after
            if bdry (some lastC) nxt then some (Nat.succ k) else shrinkB r after minLen k

/-- Match `cls{minLen,}\b` at the start of `s` (greedy with
backtracking); returns the number of characters consumed. -/
def runBdryLen (cls : Char → Bool) (minLen : Nat) (s : Str) : Option Nat :=
  let r := List.takeWhile cls s
  let after := (List.drop r.length s).head?
  shrinkB r after minLen r.length

def eyJL : Str := "eyJ".toList

/-- `\beyJ[A-Za-z0-9_\-]+\.[A-Za-z0-9_\-]+\.[A-Za-z0-9_\-]+\b` (JWT). -/
def recogJwt (prev : Option Char) (s : Str) : Option Nat :=
  if optWord prev then none
  else if eyJL.isPrefixOf s then
    let t1 := List.drop 3 s
    let r1 := List.takeWhile clsWordHy t1
    if r1 = [] then none
    else
      match List.drop r1.length t1 with
      | '.' :: t2 =>
          let r2 := List.takeWhile clsWordHy t2
          if r2 = [] then none
          else
            match List.drop r2.length t2 with
            | '.' :: t3 =>
                match runBdryLen clsWordHy 1 t3 with
                | some k => some (3 + r1.length + 1 + r2.length + 1 + k)
                | none => none
            | _ => none
      | _ => none
  else none

def akiaL : Str := "AKIA".toList

/-- `\bAKIA[0-9A-Z]{16}\b` (AWS access key id). -/
def recogAws (prev : Option Char) (s : Str) : Option Nat :=
  if optWord prev then none
  else if akiaL.isPrefixOf s then
    let body := List.take 16 (List.drop 4 s)
    if body.length = 16 && body.all (fun c => c.isDigit || c.isUpper) then
      if optWord ((List.drop 20 s).head?) then none else some 20
    else none
  else none

/-- `\bgh[psopu]_[A-Za-z0-9]{36,}\b` (GitHub tokens). -/
def recogGh (prev : Option Char) (s : Str) : Option Nat :=
  if optWord prev then none
  else
    match s with
    | 'g' :: 'h' :: c3 :: '_' :: rest =>
        if c3 == 'p' || c3 == 's' || c3 == 'o' || c3 == 'u' then
          let run := List.takeWhile Char.isAlphanum rest
          if 36 ≤ run.length && !optWord ((List.drop run.length rest).head?) then
            some (4 + run.length)
          else none
        else none
    | _ => none

def glpatL : Str := "glpat-".toList

/-- `\bglpat-[A-Za-z0-9_\-]{20,}\b` (GitLab tokens). -/
def recogGitlab (prev : Option Char) (s : Str) : Option Nat :=
  if optWord prev then none
  else if glpatL.isPrefixOf s then
    match runBdryLen clsWordHy 20 (List.drop 6 s) with
    | some k => some (6 + k)
    | none => none
  else none

def xoxL : Str := "xox".toList

/-- `\bxox[bpares]-[A-Za-z0-9\-]{10,}\b` (Slack tokens). -/
def recogSlack (prev : Option Char) (s : Str) : Option Nat :=
  if optWord prev then none
  else if xoxL.isPrefixOf s then
    match List.drop 3 s with
    | c4 :: '-' :: rest =>
        if c4 == 'b' || c4 == 'p' || c4 == 'a' || c4 == 'r' || c4 == 'e' || c4 == 's' then
          match runBdryLen clsAlnumHy 10 rest with
          | some k => some (5 + k)
          | none => none
        else none
    | _ => none
  else none

def skL : Str := "sk-".toList

/-- `\bsk-[A-Za-z0-9\-_]{20,}\b` (OpenAI/Anthropic style keys). -/
def recogSk (prev : Option Char) (s : Str) : Option Nat :=
  if optWord prev then none
  else if skL.isPrefixOf s then
    match runBdryLen clsWordHy 20 (List.drop 3 s) with
    | some k => some (3 + k)
    | none => none
  else none

def npmL : Str := "npm_".toList

/-- `\bnpm_[A-Za-z0-9]{36,}\b` (npm tokens). -/
def recogNpm (prev : Option Char) (s : Str) : Option Nat :=
  if optWord prev then none
  else if npmL.isPrefixOf s then
    let run := List.takeWhile Char.isAlphanum (List.drop 4 s)
    if 36 ≤ run.length && !optWord ((List.drop (4 + run.length) s).head?) then
      some (4 + run.length)
    else none
  else none

/-- Wrap a stage-5 recognizer into a minting matcher: the whole match
(`m.group(0)`) is vaulted and replaced by a fresh token. -/
def mintWhole (recog : Option Char → Str → Option Nat)
    (prev : Option Char) (s : Str) (st : TkState) : Option (Nat × Str × TkState) :=
  match recog prev s with
  | some n =>
      let p := mint st (List.take n s)
      some (n, p.1, p.2)
  | none => none

/-- `Session.tokenize_input`: replace credential values in user input
with opaque tokens before sending to the model.  The five stages run in
source order: explicit `[[...]]` spans, key/value credential pairs,
URL-embedded credentials, Authorization headers, then the seven known
key shapes (JWT, AWS, GitHub, GitLab, Slack, OpenAI, npm). -/
def tokenize_input (st : TkState) (text : Str) : Str × TkState :=
  let p1 := runSubSt m_explicit text st
  let p2 := runSubSt m_kv p1.1 p1.2
  let p3 := runSubSt m_url p2.1 p2.2
  let p4 := runSubSt m_auth p3.1 p3.2
  let p5 := runSubSt (mintWhole recogJwt) p4.1 p4.2
  let p6 := runSubSt (mintWhole recogAws) p5.1 p5.2
  let p7 := runSubSt (mintWhole recogGh) p6.1 p6.2
  let p8 := runSubSt (mintWhole recogGitlab) p7.1 p7.2
  let p9 := runSubSt (mintWhole recogSlack) p8.1 p8.2
  let p10 := runSubSt (mintWhole recogSk) p9.1 p9.2
  runSubSt (mintWhole recogNpm) p10.1 p10.2

/-! ## Egress redactor (`_redact_output` in agent.py)

Twelve sequential re.sub passes with constant replacements.  The
credential-shape recognizers are shared with the tokenizer above; the
PEM-block and SSN patterns are specific to the redactor. -/

/-- Stateless re.sub pass. -/
def runSubP (m : Option Char → Str → Option (Nat × Str)) (text : Str) : Str :=
  (runSubSt (fun prev s (_ : Unit) =>
      match m prev s with
      | some p => some (p.1, p.2, ())
      | none => none) text ()).1

def redactedL : Str := "[REDACTED]".toList

def redactedPkL : Str := "[REDACTED-PRIVATE-KEY]".toList

def redactedJwtL : Str := "[REDACTED-JWT]".toList

def redactedAwsL : Str := "[REDACTED-AWS-KEY]".toList

def redactedGhL : Str := "[REDACTED-GITHUB-TOKEN]".toList

def redactedGlL : Str := "[REDACTED-GITLAB-TOKEN]".toList

def redactedSlackL : Str := "[REDACTED-SLACK-TOKEN]".toList

def redactedApiL : Str := "[REDACTED-API-KEY]".toList

def redactedNpmL : Str := "[REDACTED-NPM-TOKEN]".toList

def redactedSsnL : Str := "[REDACTED-SSN]".toList

def beginMark : Str := "-----BEGIN ".toList

def endMark : Str := "-----END ".toList

def pkMark : Str := " PRIVATE KEY".toList

def dashes5 : Str := "-----".toList

/-- Character class `[A-Z ]` of the PEM header/footer. -/
def pemC (c : Char) : Bool :=
  c.isUpper || c == ' '

/-- Match `<tag>[A-Z ]+ PRIVATE KEY-----` at the start of `s`
(the shared shape of the PEM header and footer); returns the consumed
length. -/
def pemHeadLen (tag : Str) (s : Str) : Option Nat :=
  if tag.isPrefixOf s then
    let r := List.takeWhile pemC (List.drop tag.length s)
    if 12 < r.length && pkMark.isSuffixOf r &&
        dashes5.isPrefixOf (List.drop (tag.length + r.length) s) then
      some (tag.length + r.length + 5)
    else none
  else none

/-- The lazy `.*?` search for the PEM footer: the earliest offset at
which the footer matches, plus the footer length. -/
def pemFindEnd : Nat → Str → Nat → Option Nat
  | 0, _, _ => none
  | Nat.succ f, s, acc =>
      match pemHeadLen endMark s with
      | some el => some (acc + el)
      | none =>
          match s with
          | [] => none
          | _ :: cs => pemFindEnd f cs (acc + 1)

/-- `-----BEGIN [A-Z ]+ PRIVATE KEY-----.*?-----END [A-Z ]+ PRIVATE KEY-----`
(DOTALL). -/
def pm_pem (_prev : Option Char) (s : Str) : Option (Nat × Str) :=
  match pemHeadLen beginMark s with
  | none => none
  | some hl =>
      let rest := List.drop hl s
      match pemFindEnd (rest.length + 1) rest 0 with
      | some total => some (hl + total, redactedPkL)
      | none => none

/-- Redactor pass for the key/value credential pattern (same regex as
tokenizer stage 2, defined independently in agent.py); replacement
`\1=[REDACTED]`. -/
def pm_kv (_prev : Option Char) (s : Str) : Option (Nat × Str) :=
  match matchKeyAlt s with
  | none => none
  | some kl =>
      let r1 := List.drop kl s
      let w1 := List.takeWhile pySpace r1
      let r2 := List.drop w1.length r1
      match r2 with
      | [] => none
      | c :: r3 =>
          if c == '=' || c == ':' then
            let w2 := List.takeWhile pySpace r3
            let r4 := List.drop w2.length r3
            let v := List.takeWhile (fun ch => !pySpace ch) r4
            if v = [] then none
            else some (kl + w1.length + 1 + w2.length + v.length,
                       List.take kl s ++ '=' :: redactedL)
          else none

/-- Redactor pass for Authorization headers (same regex as tokenizer
stage 4); replacement `\1[REDACTED]`. -/
def pm_auth (_prev : Option Char) (s : Str) : Option (Nat × Str) :=
  if ciIsPrefix authHdrL s then
    let r1 := List.drop 14 s
    let w1 := List.takeWhile pySpace r1
    let r2 := List.drop w1.length r1
    match authSchemeLen r2 with
    | none => none
    | some schl =>
        let r3 := List.drop schl r2
        let w2 := List.takeWhile pySpace r3
        if w2 = [] then none
        else
          let r4 := List.drop w2.length r3
          let v := List.takeWhile (fun c => !pySpace c) r4
          if v = [] then none
          else
            let plen := 14 + w1.length + schl + w2.length
            some (plen + v.length, List.take plen s ++ redactedL)
  else none

/-- `\b\d{3}-\d{2}-\d{4}\b` (SSN-shaped literals). -/
def pm_ssn (prev : Option Char) (s : Str) : Option (Nat × Str) :=
  if optWord prev then none
  else
    match s with
    | a :: b :: c3 :: '-' :: d :: e :: '-' :: f1 :: f2 :: f3 :: f4 :: rest =>
        if a.isDigit && b.isDigit && c3.isDigit && d.isDigit && e.isDigit &&
            f1.isDigit && f2.isDigit && f3.isDigit && f4.isDigit &&
            !optWord rest.head? then
          some (11, redactedSsnL)
        else none
    | _ => none

/-- Constant-replacement wrapper for the shared key-shape recognizers. -/
def constRepl (recog : Option Char → Str → Option Nat) (repl : Str)
    (prev : Option Char) (s : Str) : Option (Nat × Str) :=
  match recog prev s with
  | some n => some (n, repl)
  | none => none

/-- `_redact_output`: mask credential-like patterns in tool output
before it is sent back to the model (the twelve `_REDACT_PATTERNS`
passes, in source order). -/
def redact_output (text : Str) : Str :=
  let t1 := runSubP pm_pem text
  let t2 := runSubP pm_kv t1
  let t3 := runSubP pm_auth t2
  let t4 := runSubP (constRepl recogJwt redactedJwtL) t3
  let t5 := runSubP (constRepl recogAws redactedAwsL) t4
  let t6 := runSubP (constRepl recogGh redactedGhL) t5
  let t7 := runSubP (constRepl recogGitlab redactedGlL) t6
  let t8 := runSubP (constRepl recogSlack redactedSlackL) t7
  let t9 := runSubP (constRepl recogSk redactedApiL) t8
  let t10 := runSubP (constRepl recogNpm redactedNpmL) t9
  runSubP pm_ssn t10

/-! ## Scope guard (`_is_in_scope`, `_extract_target` in agent.py) -/

/-- Python str.strip() (whitespace at both ends). -/
def pyStrip (s : Str) : Str :=
  ((s.dropWhile pySpace).reverse.dropWhile pySpace).reverse

/-- Python rstrip of `/` characters at the end. -/
def rstripSlash (s : Str) : Str :=
  (s.reverse.dropWhile (fun c => c == '/')).reverse

/-- Target/entry canonicalisation shared by both sides of the scope
check: strip, lowercase, strip trailing slashes, strip an
`https://`/`http://` scheme, and drop everything after the first `/`. -/
def canonicalize (t : Str) : Str :=
  let a := pyStrip t
  let b := a.map Char.toLower
  let c := rstripSlash b
  let d :=
    if httpsL.isPrefixOf c then List.drop 8 c
    else if httpL.isPrefixOf c then List.drop 7 c
    else c
  List.takeWhile (fun ch => !(ch == '/')) d

/-- Parse one dotted-quad octet as `ipaddress` does: 1 to 3 digits, no
leading zero (except `0` itself), value at most 255. -/
def parseOctet (s : Str) : Option Nat :=
  if s = [] then none
  else if !(s.all Char.isDigit) then none
  else if 3 < s.length then none
  else if 1 < s.length && s.head? = some '0' then none
  else
    let v := s.foldl (fun acc c => acc * 10 + (c.toNat - 48)) 0
    if v ≤ 255 then some v else none

/-- `ipaddress.ip_address` on a dotted-quad string, as a 32-bit value.
(The source accepts IPv6 addresses as well; scope entries in this
system are IPv4 hosts and networks, which is the fragment modelled.) -/
def parseIPv4 (s : Str) : Option Nat :=
  match s.splitOn '.' with
  | [a, b, c, d] =>
      match parseOctet a, parseOctet b, parseOctet c, parseOctet d with
      | some x, some y, some z, some w => some (((x * 256 + y) * 256 + z) * 256 + w)
      | _, _, _, _ => none
  | _ => none

/-- Parse a prefix length `0..32` (digits, no leading zero). -/
def parsePrefixLen (s : Str) : Option Nat :=
  if s = [] then none
  else if !(s.all Char.isDigit) then none
  else if 1 < s.length && s.head? = some '0' then none
  else
    let v := s.foldl (fun acc c => acc * 10 + (c.toNat - 48)) 0
    if v ≤ 32 then some v else none

/-- `ipaddress.ip_network(entry, strict=False)` on the IPv4 fragment:
a dotted quad with an optional `/n` prefix; host bits are irrelevant
because membership compares the top `n` bits only. -/
def parseNetwork (s : Str) : Option (Nat × Nat) :=
  match s.splitOn '/' with
  | [a] => (parseIPv4 a).map (fun v => (v, 32))
  | [a, p] =>
      match parseIPv4 a, parsePrefixLen p with
      | some v, some pl => some (v, pl)
      | _, _ => none
  | _ => none

/-- Membership of an address in a network: the top `pl` bits agree. -/
def ipInNet (addr net pl : Nat) : Bool :=
  Nat.shiftRight addr (32 - pl) = Nat.shiftRight net (32 - pl)

def wildcardL : Str := "*.".toList

/-- `_is_in_scope(target, scope)`: True iff the target matches any
entry under the exact / `*.wildcard` / parent-domain-suffix / CIDR
rules; an empty scope allows everything; unparseable CIDR entries are
skipped. -/
def is_in_scope (target : Str) (scope : List Str) : Bool :=
  if scope = [] then true
  else
    let t := canonicalize target
    scope.any (fun e0 =>
      let e := canonicalize e0
      t == e ||
      (wildcardL.isPrefixOf e &&
        (let base := List.drop 2 e
         t == base || ('.' :: base).isSuffixOf t)) ||
      ('.' :: e).isSuffixOf t ||
      (match parseNetwork e, parseIPv4 t with
       | some (nv, pl), some av => ipInNet av nv pl
       | _, _ => false))

def sqC : Char := Char.ofNat 39

def lbraceC : Char := Char.ofNat 123

def rbraceC : Char := Char.ofNat 125

def trueL : Str := "True".toList

def falseL : Str := "False".toList

def noneL : Str := "None".toList

def commaSpL : Str := ", ".toList

mutual

/-- Python repr of a value (nested position inside str() of a
container).  Escaping inside string reprs is not modelled; the strings
the claims touch contain no quotes or backslashes. -/
def pyRepr : Obj → Str
  | Obj.str s => sqC :: s ++ [sqC]
  | Obj.num n => (Int.repr n).toList
  | Obj.boolean true => trueL
  | Obj.boolean false => falseL
  | Obj.null => noneL
  | Obj.arr l => '[' :: pyReprList l ++ [']']
  | Obj.dict d => lbraceC :: pyReprDict d ++ [rbraceC]

def pyReprList : ObjList → Str
  | ObjList.nil => []
  | ObjList.cons h ObjList.nil => pyRepr h
  | ObjList.cons h t => pyRepr h ++ commaSpL ++ pyReprList t

def pyReprDict : ObjDict → Str
  | ObjDict.nil => []
  | ObjDict.cons k v ObjDict.nil => sqC :: k ++ sqC :: ':' :: ' ' :: pyRepr v
  | ObjDict.cons k v t => sqC :: k ++ sqC :: ':' :: ' ' :: pyRepr v ++ commaSpL ++ pyReprDict t

end

/-- Python str(): strings render as themselves, other values as their
repr. -/
def pyStr : Obj → Str
  | Obj.str s => s
  | o => pyRepr o

def targetL : Str := "target".toList

def hostKeyL : Str := "host".toList

def domainKeyL : Str := "domain".toList

def urlKeyL : Str := "url".toList

def ipKeyL : Str := "ip".toList

def hostsKeyL : Str := "hosts".toList

def uKeyL : Str := "u".toList

def targetKeys : List Str := [targetL, hostKeyL, domainKeyL, urlKeyL, ipKeyL, hostsKeyL, uKeyL]

/-- Probe the parameter map for the first present key of the ordered
target-parameter list, returning `str(params[key])`. -/
def probeKeys (d : ObjDict) : List Str → Option Str
  | [] => none
  | k :: ks =>
      if dictMem k d then some (pyStr (dictGetD k Obj.null d)) else probeKeys d ks

/-- One attempt of `\b(?:\d{1,3}\.){3}\d{1,3}(?:/\d{1,2})?\b` at the
head of `s`: an octet-and-dot unit. -/
def ipOctDot (s : Str) : Option Nat :=
  let d := List.takeWhile Char.isDigit s
  if d = [] || 3 < d.length then none
  else
    match List.drop d.length s with
    | '.' :: _ => some (d.length + 1)
    | _ => none

/-- Match the IPv4-literal pattern (with optional CIDR suffix) at the
head of `s`; `prev` is the preceding character for the \b boundary. -/
def ipAt (prev : Option Char) (s : Str) : Option Nat :=
  if optWord prev then none
  else
    match ipOctDot s with
    | none => none
    | some n1 =>
        match ipOctDot (List.drop n1 s) with
        | none => none
        | some n2 =>
            match ipOctDot (List.drop (n1 + n2) s) with
            | none => none
            | some n3 =>
                let r := List.drop (n1 + n2 + n3) s
                let d4 := List.takeWhile Char.isDigit r
                if d4 = [] || 3 < d4.length then none
                else
                  let base := n1 + n2 + n3 + d4.length
                  let rest := List.drop d4.length r
                  match rest with
                  | '/' :: r2 =>
                      let dp := List.takeWhile Char.isDigit r2
                      if 2 ≤ dp.length && !optWord ((List.drop 2 r2).head?) then
                        some (base + 3)
                      else if 1 ≤ dp.length && !optWord ((List.drop 1 r2).head?) then
                        some (base + 2)
                      else some base
                  | _ => if optWord rest.head? then none else some base

/-- `re.findall(ip-pattern, command)[0]`: the first (leftmost) match. -/
def findIpTok : Nat → Option Char → Str → Option Str
  | 0, _, _ => none
  | Nat.succ f, prev, s =>
      match s with
      | [] => none
      | c :: cs =>
          match ipAt prev s with
          | some n => some (List.take n s)
          | none => findIpTok f (some c) cs

def lowAlnum (c : Char) : Bool := c.isLower || c.isDigit

def labC (c : Char) : Bool := c.isLower || c.isDigit || c == '-'

/-- One `[a-z0-9](?:[a-z0-9\-]{0,61}[a-z0-9])?\.` label unit (consumed
length including the trailing dot). -/
def labelAt (s : Str) : Option Nat :=
  match s with
  | [] => none
  | c :: rest =>
      if lowAlnum c then
        let run := List.takeWhile labC rest
        if 62 < run.length then none
        else if run = [] then
          match rest with
          | '.' :: _ => some 2
          | _ => none
        else
          match run.getLast? with
          | some lc2 =>
              if lowAlnum lc2 then
                match List.drop run.length rest with
                | '.' :: _ => some (1 + run.length + 1)
                | _ => none
              else none
          | none => none
      else none

/-- Cumulative consumed lengths of the maximal greedy run of label
units at the head of `s`. -/
def labelsAt : Nat → Str → List Nat
  | 0, _ => []
  | Nat.succ f, s =>
      match labelAt s with
      | some n => n :: (labelsAt f (List.drop n s)).map (fun m => n + m)
      | none => []

/-- `[a-z]{2,}\b` for the final TLD component. -/
def tldAt (s : Str) : Option Nat :=
  let r := List.takeWhile Char.isLower s
  if 2 ≤ r.length && !optWord ((List.drop r.length s).head?) then some r.length
  else none

/-- Backtracking over the number of label units (greedy, longest
first), then the TLD. -/
def tryLabelCounts (s : Str) : List Nat → Option Nat
  | [] => none
  | n :: rest =>
      match tldAt (List.drop n s) with
      | some t => some (n + t)
      | none => tryLabelCounts s rest

/-- Match the domain-like pattern
`\b(?:[a-z0-9](?:[a-z0-9\-]{0,61}[a-z0-9])?\.)+[a-z]{2,}\b` at the head
of `s`. -/
def domAt (prev : Option Char) (s : Str) : Option Nat :=
  if optWord prev then none
  else tryLabelCounts s (labelsAt s.length s).reverse

/-- `re.findall(domain-pattern, command)[0]`. -/
def findDomTok : Nat → Option Char → Str → Option Str
  | 0, _, _ => none
  | Nat.succ f, prev, s =>
      match s with
      | [] => none
      | c :: cs =>
          match domAt prev s with
          | some n => some (List.take n s)
          | none => findDomTok f (some c) cs

def execToolL : Str := "execute_tool".toList

def execBashL : Str := "execute_bash".toList

def recordFindingL : Str := "record_finding".toList

def readFileL : Str := "read_file".toList

def addToScopeL : Str := "add_to_scope".toList

def parametersL : Str := "parameters".toList

def commandL : Str := "command".toList

/-- `_extract_target(tool_name, tool_input)`: for `execute_tool`, probe
the parameter map for the first known target key; for `execute_bash`,
take the first IPv4 literal, else the first domain-like token, of the
command string; other tools yield no target. -/
def extract_target (tool_name : Str) (tool_input : Obj) : Option Str :=
  if tool_name == execToolL then
    match tool_input with
    | Obj.dict d =>
        (match dictGetD parametersL (Obj.dict ObjDict.nil) d with
         | Obj.dict p => probeKeys p targetKeys
         | _ => none)
    | _ => none
  else if tool_name == execBashL then
    let cmd : Str :=
      match tool_input with
      | Obj.dict d =>
          (match dictGetD commandL (Obj.str []) d with
           | Obj.str s => s
           | _ => [])
      | _ => []
    match findIpTok cmd.length none cmd with
    | some m => some m
    | none => findDomTok cmd.length none cmd
  else none

/-! ## Session store (session_manager.py) -/

/-- A pending autonomous-step approval record (the dict created in
`PentestAgent._run_single_step` and resolved by `approve_step`). -/
structure PendingApproval where
  step_id : Str
  step_number : Nat
  description : Str
  tool_calls : ObjList
  approved : Option Bool
  resolved : Bool

/-- A `Session` object: the persistent projection plus the volatile
autonomous-mode state and the credential-token vault (never
serialized). -/
structure Session where
  id : Str
  name : Str
  target_scope : List Str
  notes : Str
  client_id : Option Str
  created_at : Str
  messages : ObjList
  events : ObjList
  findings : ObjList
  auto_mode : Bool
  auto_objective : Str
  auto_max_steps : Nat
  auto_current_step : Nat
  auto_pending_approval : Option PendingApproval
  auto_user_messages : List Str
  token_store : Vault
  token_counter : Nat

/-- The persistent projection of a session (what `_save` writes and
what survives a restart). -/
structure SessionPersist where
  id : Str
  name : Str
  target_scope : List Str
  notes : Str
  client_id : Option Str
  created_at : Str
  messages : ObjList
  events : ObjList
  findings : ObjList

def session_persist (s : Session) : SessionPersist :=
  ⟨s.id, s.name, s.target_scope, s.notes, s.client_id, s.created_at,
   s.messages, s.events, s.findings⟩

def idL : Str := "id".toList

def nameL : Str := "name".toList

def scopeKeyL : Str := "target_scope".toList

def notesL : Str := "notes".toList

def clientIdL : Str := "client_id".toList

def createdAtL : Str := "created_at".toList

def messagesL : Str := "messages".toList

def eventsL : Str := "events".toList

def findingsL : Str := "findings".toList

def strsToObjList : List Str → ObjList
  | [] => ObjList.nil
  | s :: rest => ObjList.cons (Obj.str s) (strsToObjList rest)

def objListToStrs : ObjList → Option (List Str)
  | ObjList.nil => some []
  | ObjList.cons (Obj.str s) t => (objListToStrs t).map (fun l => s :: l)
  | ObjList.cons _ _ => none

def optStrObj : Option Str → Obj
  | some s => Obj.str s
  | none => Obj.null

/-- `Session.to_full_dict`: the persistent projection, in source field
order. -/
def to_full_dict (s : Session) : Obj :=
  Obj.dict
    (ObjDict.cons idL (Obj.str s.id)
    (ObjDict.cons nameL (Obj.str s.name)
    (ObjDict.cons scopeKeyL (Obj.arr (strsToObjList s.target_scope))
    (ObjDict.cons notesL (Obj.str s.notes)
    (ObjDict.cons clientIdL (optStrObj s.client_id)
    (ObjDict.cons createdAtL (Obj.str s.created_at)
    (ObjDict.cons messagesL (Obj.arr s.messages)
    (ObjDict.cons eventsL (Obj.arr s.events)
    (ObjDict.cons findingsL (Obj.arr s.findings) ObjDict.nil)))))))))

def getStrReq (d : ObjDict) (k : Str) : Option Str :=
  match dictGet k d with
  | some (Obj.str s) => some s
  | _ => none

def getStrD (d : ObjDict) (k : Str) (dflt : Str) : Option Str :=
  match dictGet k d with
  | some (Obj.str s) => some s
  | none => some dflt
  | _ => none

def getArrD (d : ObjDict) (k : Str) : Option ObjList :=
  match dictGet k d with
  | some (Obj.arr l) => some l
  | none => some ObjList.nil
  | _ => none

def getOptStrD (d : ObjDict) (k : Str) : Option (Option Str) :=
  match dictGet k d with
  | some (Obj.str s) => some (some s)
  | some Obj.null => some none
  | none => some none
  | _ => none

def getNatD (d : ObjDict) (k : Str) (dflt : Nat) : Option Nat :=
  match dictGet k d with
  | some (Obj.num n) => if n < 0 then none else some n.toNat
  | none => some dflt
  | _ => none

/-- `Session.from_dict`: reconstruct a session from persisted data.
`now` models the wall-clock default the constructor would install for
`created_at` when the key is absent.  Volatile state is reset to the
constructor defaults.  A `none` result models a shape mismatch that the
dynamically-typed source would only surface later. -/
def from_dict (now : Str) (data : Obj) : Option Session :=
  match data with
  | Obj.dict d => do
      let nm ← getStrReq d nameL
      let idv ← getStrReq d idL
      let sc ←
        match dictGet scopeKeyL d with
        | some (Obj.arr l) => objListToStrs l
        | none => some []
        | _ => none
      let nts ← getStrD d notesL []
      let cid ← getOptStrD d clientIdL
      let cat ← getStrD d createdAtL now
      let msgs ← getArrD d messagesL
      let evs ← getArrD d eventsL
      let fnds ← getArrD d findingsL
      pure { id := idv, name := nm, target_scope := sc, notes := nts, client_id := cid,
             created_at := cat, messages := msgs, events := evs, findings := fnds,
             auto_mode := false, auto_objective := [], auto_max_steps := 10,
             auto_current_step := 0, auto_pending_approval := none,
             auto_user_messages := [], token_store := [], token_counter := 0 }
  | _ => none

/-! ## Persistence writes (`Session._save`, `ScheduleManager._save`)

The on-disk state of one target path is `Option Str` (absent or its
contents).  `content` stands for the serialized JSON the routine passes
to the write.  Outcomes: the write succeeds, the open itself fails
(file untouched), or the write fails after `k` characters have been
emitted into the already-truncated file. -/

inductive WriteOutcome where
  | ok
  | openFail
  | failAfter (k : Nat)

/-- `Session._save`: `open(path, "w")` followed by `json.dump`, with
every exception caught and logged.  No temporary file and no rename:
opening truncates the target in place, so a partial failure leaves a
prefix of the new content. -/
def session_save_fs (fs : Option Str) (content : Str) : WriteOutcome → Option Str
  | WriteOutcome.ok => some content
  | WriteOutcome.openFail => fs
  | WriteOutcome.failAfter k => some (content.take k)

/-- `ScheduleManager._save`: `SCHEDULES_FILE.write_text(...)`, which is
open-truncate-write with the same failure behaviour. -/
def schedule_save_fs (fs : Option Str) (content : Str) : WriteOutcome → Option Str
  | WriteOutcome.ok => some content
  | WriteOutcome.openFail => fs
  | WriteOutcome.failAfter k => some (content.take k)

/-- Modelled from the spec: the write-temp + rename discipline the spec
prescribes for all persistence writes ("All writes go through
write-temp + rename").  A failed write never touches the target. -/
def atomic_save_fs (fs : Option Str) (content : Str) : WriteOutcome → Option Str
  | WriteOutcome.ok => some content
  | WriteOutcome.openFail => fs
  | WriteOutcome.failAfter _ => fs

/-! ## Scheduled jobs (schedule_manager.py, main.py) -/

structure ScheduledJob where
  id : Str
  session_id : Str
  tool : Str
  parameters : Obj
  schedule_type : Str
  run_at : Option Str
  cron_expr : Option Str
  label : Str
  created_at : Str
  last_run : Option Str
  next_run : Option Str
  status : Str
  run_count : Nat
  created_by : Option Str

def sessionIdL : Str := "session_id".toList

def toolKeyL : Str := "tool".toList

def scheduleTypeL : Str := "schedule_type".toList

def runAtL : Str := "run_at".toList

def cronExprL : Str := "cron_expr".toList

def labelL : Str := "label".toList

def lastRunL : Str := "last_run".toList

def nextRunL : Str := "next_run".toList

def statusKeyL : Str := "status".toList

def runCountL : Str := "run_count".toList

def createdByL : Str := "created_by".toList

def onceL : Str := "once".toList

def cronL : Str := "cron".toList

def scheduledS : Str := "scheduled".toList

def runningS : Str := "running".toList

def completedS : Str := "completed".toList

def failedS : Str := "failed".toList

def disabledS : Str := "disabled".toList

def startingS : Str := "starting".toList

def errorS : Str := "error".toList

def timeoutS : Str := "timeout".toList

def killedS : Str := "killed".toList

/-- `ScheduledJob.to_dict`, in source field order. -/
def job_to_dict (j : ScheduledJob) : Obj :=
  Obj.dict
    (ObjDict.cons idL (Obj.str j.id)
    (ObjDict.cons sessionIdL (Obj.str j.session_id)
    (ObjDict.cons toolKeyL (Obj.str j.tool)
    (ObjDict.cons parametersL j.parameters
    (ObjDict.cons scheduleTypeL (Obj.str j.schedule_type)
    (ObjDict.cons runAtL (optStrObj j.run_at)
    (ObjDict.cons cronExprL (optStrObj j.cron_expr)
    (ObjDict.cons labelL (Obj.str j.label)
    (ObjDict.cons createdAtL (Obj.str j.created_at)
    (ObjDict.cons lastRunL (optStrObj j.last_run)
    (ObjDict.cons nextRunL (optStrObj j.next_run)
    (ObjDict.cons statusKeyL (Obj.str j.status)
    (ObjDict.cons runCountL (Obj.num (Int.ofNat j.run_count))
    (ObjDict.cons createdByL (optStrObj j.created_by) ObjDict.nil))))))))))))))

/-- `ScheduledJob.from_dict`: constructor with keyword arguments, then
the five field overrides.  `now` models the constructor's wall-clock
`created_at` default. -/
def job_from_dict (now : Str) (data : Obj) : Option ScheduledJob :=
  match data with
  | Obj.dict d => do
      let sid ← getStrReq d sessionIdL
      let tl ← getStrReq d toolKeyL
      let params := dictGetD parametersL (Obj.dict ObjDict.nil) d
      let sty ← getStrD d scheduleTypeL onceL
      let lbl ← getStrD d labelL []
      let rat ← getOptStrD d runAtL
      let cex ← getOptStrD d cronExprL
      let cby ← getOptStrD d createdByL
      let idv ← getStrReq d idL
      let cat ← getStrD d createdAtL now
      let lrn ← getOptStrD d lastRunL
      let nrn ← getOptStrD d nextRunL
      let st ← getStrD d statusKeyL scheduledS
      let rc ← getNatD d runCountL 0
      pure { id := idv, session_id := sid, tool := tl, parameters := params,
             schedule_type := sty, run_at := rat, cron_expr := cex, label := lbl,
             created_at := cat, last_run := lrn, next_run := nrn, status := st,
             run_count := rc, created_by := cby }
  | _ => none

def assocGet {α : Type} (k : Str) : List (Str × α) → Option α
  | [] => none
  | (k', v) :: rest => if k = k' then some v else assocGet k rest

def assocSet {α : Type} (k : Str) (v : α) : List (Str × α) → List (Str × α)
  | [] => [(k, v)]
  | (k', v') :: rest =>
      if k = k' then (k', v) :: rest else (k', v') :: assocSet k v rest

/-- Python truthiness of an optional string (`if last_run:`). -/
def strTruthy : Option Str → Bool
  | none => false
  | some s => !s.isEmpty

/-- `ScheduleManager.update_status(job_id, status, last_run, next_run)`:
sets the status; a truthy `last_run` also updates `last_run` and
increments `run_count`; a non-None `next_run` overwrites `next_run`.
(Each call also persists via `_save`, modelled separately at the
file-system level.) -/
def update_status (jobs : List (Str × ScheduledJob)) (job_id status : Str)
    (last_run next_run : Option Str) : List (Str × ScheduledJob) :=
  match assocGet job_id jobs with
  | none => jobs
  | some j =>
      let j1 :=
        if strTruthy last_run then
          { j with status := status, last_run := last_run, run_count := j.run_count + 1 }
        else
          { j with status := status }
      let j2 :=
        match next_run with
        | some v => { j1 with next_run := some v }
        | none => j1
      assocSet job_id j2 jobs

def toolExecEvL : Str := "tool_exec".toList

def taskIdL : Str := "task_id".toList

def sourceL : Str := "source".toList

def schedulerL : Str := "scheduler".toList

def jobIdL : Str := "job_id".toList

def typeL : Str := "type".toList

def toolStartL : Str := "tool_start".toList

def timestampL : Str := "timestamp".toList

/-- Result of one scheduled-job fire: the updated job table, the
sequence of statuses the job was moved through, and the session
event/broadcast effects. -/
structure SchedRunOut where
  jobs : List (Str × ScheduledJob)
  statusTrace : List Str
  events : List (Str × Obj)
  broadcasts : List Obj

/-- `_execute_scheduled_job(job_id)` (main.py): skip missing and
disabled/completed jobs; mark the job failed when its session is gone;
otherwise mark it running (with `last_run`), log and broadcast a
`tool_start`, submit to the executor, and finally mark it `scheduled`
(cron) or `completed` (once) on success, `failed` on a submission
error.  `session_exists` and `submit_ok` stand for the session lookup
and the executor POST outcome. -/
def execute_scheduled_job (jobs : List (Str × ScheduledJob)) (job_id : Str)
    (session_exists submit_ok : Bool) (now task_id : Str) : SchedRunOut :=
  match assocGet job_id jobs with
  | none => ⟨jobs, [], [], []⟩
  | some job =>
      if job.status == disabledS || job.status == completedS then ⟨jobs, [], [], []⟩
      else if !session_exists then
        ⟨update_status jobs job_id failedS none none, [failedS], [], []⟩
      else
        let j1 := update_status jobs job_id runningS (some now) none
        let ev := (toolExecEvL, Obj.dict
          (ObjDict.cons toolKeyL (Obj.str job.tool)
          (ObjDict.cons parametersL job.parameters
          (ObjDict.cons taskIdL (Obj.str task_id)
          (ObjDict.cons sourceL (Obj.str schedulerL)
          (ObjDict.cons jobIdL (Obj.str job_id) ObjDict.nil))))))
        let bc := Obj.dict
          (ObjDict.cons typeL (Obj.str toolStartL)
          (ObjDict.cons toolKeyL (Obj.str job.tool)
          (ObjDict.cons taskIdL (Obj.str task_id)
          (ObjDict.cons parametersL job.parameters
          (ObjDict.cons sourceL (Obj.str schedulerL)
          (ObjDict.cons timestampL (Obj.str now) ObjDict.nil))))))
        if submit_ok then
          let ns := if job.schedule_type == cronL then scheduledS else completedS
          ⟨update_status j1 job_id ns (some now) none, [runningS, ns], [ev], [bc]⟩
        else
          ⟨update_status j1 job_id failedS (some now) none, [runningS, failedS], [ev], [bc]⟩

/-! ## Task registry and executor (src/scripts/tool_server.py) -/

/-- A task record of the `running_tasks` registry. -/
structure TaskRec where
  task_id : Str
  tool : Str
  command : Str
  status : Str
  started_at : Str
  output : Str
  error : Str
  return_code : Option Int
  pid : Option Nat
  finished_at : Option Str
deriving DecidableEq

def alreadyFinishedS : Str := "already_finished".toList

/-- Python truthiness of `task.get("pid")`. -/
def pidTruthy : Option Nat → Bool
  | none => false
  | some p => p != 0

/-- Responses of `POST /task/{id}/kill`. -/
inductive KillResp where
  | notFound
  | jsonStatus (status : Str)
deriving DecidableEq

/-- `kill_task` endpoint: 404 for an unknown id; for a running task
with a pid, send SIGTERM (outcome `kill_ok`; a `ProcessLookupError`
reports `already_finished` without mutating); otherwise report the
current status and mutate nothing. -/
def kill_task (reg : List (Str × TaskRec)) (task_id : Str) (kill_ok : Bool) :
    List (Str × TaskRec) × KillResp :=
  match assocGet task_id reg with
  | none => (reg, KillResp.notFound)
  | some t =>
      if t.status == runningS && pidTruthy t.pid then
        if kill_ok then
          (assocSet task_id { t with status := killedS } reg, KillResp.jsonStatus killedS)
        else (reg, KillResp.jsonStatus alreadyFinishedS)
      else (reg, KillResp.jsonStatus t.status)

/-- `run_tool_async`, natural-exit path: when `process.communicate()`
returns, the record's output, error, return code and status are
overwritten unconditionally — `completed` on exit 0, `failed`
otherwise — and `finished_at` is stamped. -/
def finish_exit (t : TaskRec) (out err : Str) (rc : Int) (fin : Str) : TaskRec :=
  { t with
    output := out
    error := err
    return_code := some rc
    status := if rc = 0 then completedS else failedS
    finished_at := some fin }

def timeout_err_msg (timeoutSec : Nat) : Str :=
  "Task timed out after ".toList ++ natDigits timeoutSec ++ "s".toList

/-- `run_tool_async`, watchdog path: on `asyncio.TimeoutError` the
process is killed and the record moves to `timeout`. -/
def finish_timeout (t : TaskRec) (timeoutSec : Nat) (fin : Str) : TaskRec :=
  { t with status := timeoutS, error := timeout_err_msg timeoutSec, finished_at := some fin }

/-- `run_tool_async`, exception path: the record moves to `error` with
the exception text. -/
def finish_error (t : TaskRec) (e : Str) (fin : Str) : TaskRec :=
  { t with status := errorS, error := e, finished_at := some fin }

/-- The terminal statuses recognised by the polling and streaming
readers (`("completed", "failed", "error", "timeout", "killed")`). -/
def isTerminal (s : Str) : Bool :=
  s == completedS || s == failedS || s == errorS || s == timeoutS || s == killedS

/-! ## Agent tool dispatch (`PentestAgent._execute_tool_call`) -/

def bashL : Str := "bash".toList

def aiAgentL : Str := "ai_agent".toList

def outputL : Str := "output".toList

def errorKeyL : Str := "error".toList

def unknownS : Str := "unknown".toList

def resultL : Str := "result".toList

def toolResultL : Str := "tool_result".toList

def bashExecEvL : Str := "bash_exec".toList

def bashResultEvL : Str := "bash_result".toList

def newFindingL : Str := "new_finding".toList

def findingL : Str := "finding".toList

def severityL : Str := "severity".toList

def titleL : Str := "title".toList

def descriptionL : Str := "description".toList

def evidenceL : Str := "evidence".toList

def pathKeyL : Str := "path".toList

def reasonL : Str := "reason".toList

def toolDiscoveryL : Str := "tool discovery".toList

def scopeAddPendingL : Str := "scope_addition_pending".toList

def approvalIdL : Str := "approval_id".toList

def scopeUpdatedL : Str := "scope_updated".toList

def addedL : Str := "added".toList

def dataL : Str := "data".toList

def unknownToolL : Str := "Unknown tool".toList

def noneDefinedL : Str := "none defined".toList

/-- `", ".join(...)`. -/
def joinCommaSp : List Str → Str
  | [] => []
  | [x] => x
  | x :: rest => x ++ commaSpL ++ joinCommaSp rest

/-- The scope list rendered for the violation message. -/
def scope_str_of (scope : List Str) : Str :=
  if scope = [] then noneDefinedL else joinCommaSp scope

/-- The first line of the scope-violation tool result (through the
final period), as quoted by the spec. -/
def scope_violation_head (target : Str) : Str :=
  "[SCOPE VIOLATION] Target ".toList ++ sqC :: target ++ sqC ::
    " is outside the defined engagement scope.".toList

/-- The full synthetic tool result returned on a scope violation. -/
def scope_violation_msg (target : Str) (scope : List Str) : Str :=
  scope_violation_head target ++ '\n' ::
    ("Allowed scope: ".toList ++ scope_str_of scope) ++ '\n' ::
    "Tool execution was blocked. Only test targets within the defined scope.".toList

/-- Python truthiness of a JSON-like value. -/
def pyTruthy : Obj → Bool
  | Obj.str s => !s.isEmpty
  | Obj.num n => n != 0
  | Obj.boolean b => b
  | Obj.null => false
  | Obj.arr ObjList.nil => false
  | Obj.arr _ => true
  | Obj.dict ObjDict.nil => false
  | Obj.dict _ => true

def objSnoc : ObjList → Obj → ObjList
  | ObjList.nil, o => ObjList.cons o ObjList.nil
  | ObjList.cons h t, o => ObjList.cons h (objSnoc t o)

/-- A session event entry as built by `Session.add_event` (agent calls
pass no user). -/
def event_entry (typ : Str) (data : Obj) (now : Str) : Obj :=
  Obj.dict
    (ObjDict.cons typeL (Obj.str typ)
    (ObjDict.cons dataL data
    (ObjDict.cons timestampL (Obj.str now) ObjDict.nil)))

/-- `Session.add_event` on the in-memory state (each call also persists
via `_save`, modelled separately at the file-system level). -/
def add_event (s : Session) (typ : Str) (data : Obj) (now : Str) : Session :=
  { s with events := objSnoc s.events (event_entry typ data now) }

/-- The result of a tool-call branch: the returned string, or a raised
Python exception (missing dict key / wrongly-typed value). -/
inductive PyResult where
  | ok (s : Str)
  | raised
deriving DecidableEq

/-- A request posted to the executor (`POST /execute/sync`). -/
structure ExecPost where
  tool : Obj
  parameters : Obj
  task_id : Str
  timeoutSec : Nat

/-- Observable outcome of `_execute_tool_call`: the updated session,
the returned value, and the broadcasts / executor posts / file reads
performed, in order. -/
structure CallOut where
  sess : Session
  res : PyResult
  broadcasts : List Obj
  posts : List ExecPost
  gets : List Str

/-- Nondeterministic inputs of one call: the fresh task id, finding id
and scope-approval id (uuid4 prefixes), and the wall-clock timestamp. -/
structure CallCfg where
  taskId : Str
  findingId : Str
  approvalId : Str
  now : Str

/-- External responses: the executor `/execute/sync` JSON (a task
record dict), the `/files/{path}` status and content, and the tester's
scope-addition decision (`none` models the 90 s timeout). -/
structure ExecOracle where
  syncResp : ObjDict
  fileCode : Nat
  fileContent : Str
  scopeDecision : Option Bool

def raisedOut (sess : Session) : CallOut :=
  ⟨sess, PyResult.raised, [], [], []⟩

def toolResMsg (statusD : Obj) (out : Str) (err : Option Str) : Str :=
  "Status: ".toList ++ pyStr statusD ++ "\nOutput:\n".toList ++ redact_output out ++
    '\n' :: (match err with
             | some e => "Errors: ".toList ++ redact_output e
             | none => [])

def bashResMsg (out : Str) (err : Option Str) : Str :=
  "Output:\n".toList ++ redact_output out ++
    '\n' :: (match err with
             | some e => "Errors: ".toList ++ redact_output e
             | none => [])

def hostsSuffixL : Str := " host(s)".toList

def noNewHostsMsg (n : Nat) : Str :=
  "No new hosts to add — all ".toList ++ natDigits n ++
    " provided host(s) were already in scope.".toList

def scopeTimeoutMsg (n : Nat) : Str :=
  "Scope addition timed out waiting for tester approval — skipping ".toList ++
    natDigits n ++ " host(s).".toList

def scopeRejectedMsg (n : Nat) (hosts : List Str) : Str :=
  "Tester rejected scope addition of ".toList ++ natDigits n ++
    " host(s): ".toList ++ joinCommaSp hosts ++ ".".toList

def scopeApprovedMsg (n : Nat) (reason : Obj) (hosts : List Str) : Str :=
  "Tester approved: added ".toList ++ natDigits n ++
    " host(s) to scope (".toList ++ pyStr reason ++ "): ".toList ++ joinCommaSp hosts

def allInScopeMsg : Str := "All proposed hosts were already in scope.".toList

def readErrMsg (code : Nat) : Str :=
  "Error reading file: ".toList ++ natDigits code

def findingRecordedMsg (sev : Str) (title : Obj) : Str :=
  "Finding recorded: [".toList ++ sev.map Char.toUpper ++ "] ".toList ++ pyStr title

/-- Modelled from the spec: `Session.add_to_scope` (referenced by
agent.py but absent from src/backend/session_manager.py) — "on
approval, merge new hosts into `target_scope`"; returns the hosts
actually added. -/
def session_add_to_scope (s : Session) (hosts : List Str) : List Str × Session :=
  let existing := s.target_scope.map (fun e => e.map Char.toLower)
  let added := hosts.filter (fun h => !existing.contains (h.map Char.toLower))
  (added, { s with target_scope := s.target_scope ++ added })

def execute_tool_branch (sess : Session) (d : ObjDict) (cfg : CallCfg)
    (orc : ExecOracle) : CallOut :=
  match dictGet toolKeyL d, dictGet parametersL d with
  | some toolObj, some paramsObj =>
      let b1 := Obj.dict
        (ObjDict.cons typeL (Obj.str toolStartL)
        (ObjDict.cons toolKeyL toolObj
        (ObjDict.cons taskIdL (Obj.str cfg.taskId)
        (ObjDict.cons parametersL paramsObj
        (ObjDict.cons sourceL (Obj.str aiAgentL)
        (ObjDict.cons timestampL (Obj.str cfg.now) ObjDict.nil))))))
      let e1data := Obj.dict
        (ObjDict.cons taskIdL (Obj.str cfg.taskId)
        (ObjDict.cons toolKeyL toolObj
        (ObjDict.cons parametersL paramsObj
        (ObjDict.cons sourceL (Obj.str aiAgentL) ObjDict.nil))))
      let s1 := add_event sess toolExecEvL e1data cfg.now
      let post : ExecPost := ⟨toolObj, paramsObj, cfg.taskId, 300⟩
      let res := orc.syncResp
      match dictGetD outputL (Obj.str []) res with
      | Obj.str out =>
          let statusRaw :=
            match dictGet statusKeyL res with
            | some v => v
            | none => Obj.null
          let e2data := Obj.dict
            (ObjDict.cons taskIdL (Obj.str cfg.taskId)
            (ObjDict.cons toolKeyL toolObj
            (ObjDict.cons statusKeyL statusRaw
            (ObjDict.cons outputL (Obj.str (out.take 5000))
            (ObjDict.cons sourceL (Obj.str aiAgentL) ObjDict.nil)))))
          let s2 := add_event s1 toolResultL e2data cfg.now
          let b2 := Obj.dict
            (ObjDict.cons typeL (Obj.str toolResultL)
            (ObjDict.cons taskIdL (Obj.str cfg.taskId)
            (ObjDict.cons toolKeyL toolObj
            (ObjDict.cons resultL (Obj.dict (dictSet parametersL paramsObj res))
            (ObjDict.cons sourceL (Obj.str aiAgentL)
            (ObjDict.cons timestampL (Obj.str cfg.now) ObjDict.nil))))))
          let statusD := dictGetD statusKeyL (Obj.str unknownS) res
          let errObj := dictGetD errorKeyL (Obj.str []) res
          if pyTruthy errObj then
            match errObj with
            | Obj.str err => ⟨s2, PyResult.ok (toolResMsg statusD out (some err)), [b1, b2], [post], []⟩
            | _ => ⟨s2, PyResult.raised, [b1, b2], [post], []⟩
          else ⟨s2, PyResult.ok (toolResMsg statusD out none), [b1, b2], [post], []⟩
      | _ => ⟨s1, PyResult.raised, [b1], [post], []⟩
  | _, _ => raisedOut sess

def execute_bash_branch (sess : Session) (d : ObjDict) (cfg : CallCfg)
    (orc : ExecOracle) : CallOut :=
  match dictGet commandL d with
  | some cmdObj =>
      let paramsObj := Obj.dict (ObjDict.cons commandL cmdObj ObjDict.nil)
      let b1 := Obj.dict
        (ObjDict.cons typeL (Obj.str toolStartL)
        (ObjDict.cons toolKeyL (Obj.str bashL)
        (ObjDict.cons taskIdL (Obj.str cfg.taskId)
        (ObjDict.cons parametersL paramsObj
        (ObjDict.cons sourceL (Obj.str aiAgentL)
        (ObjDict.cons timestampL (Obj.str cfg.now) ObjDict.nil))))))
      let e1data := Obj.dict
        (ObjDict.cons taskIdL (Obj.str cfg.taskId)
        (ObjDict.cons toolKeyL (Obj.str bashL)
        (ObjDict.cons commandL cmdObj
        (ObjDict.cons sourceL (Obj.str aiAgentL) ObjDict.nil))))
      let s1 := add_event sess bashExecEvL e1data cfg.now
      let post : ExecPost := ⟨Obj.str bashL, paramsObj, cfg.taskId, 300⟩
      let res := orc.syncResp
      match dictGetD outputL (Obj.str []) res with
      | Obj.str out =>
          let statusRaw :=
            match dictGet statusKeyL res with
            | some v => v
            | none => Obj.null
          let e2data := Obj.dict
            (ObjDict.cons taskIdL (Obj.str cfg.taskId)
            (ObjDict.cons statusKeyL statusRaw
            (ObjDict.cons outputL (Obj.str (out.take 5000))
            (ObjDict.cons sourceL (Obj.str aiAgentL) ObjDict.nil))))
          let s2 := add_event s1 bashResultEvL e2data cfg.now
          let b2 := Obj.dict
            (ObjDict.cons typeL (Obj.str toolResultL)
            (ObjDict.cons taskIdL (Obj.str cfg.taskId)
            (ObjDict.cons toolKeyL (Obj.str bashL)
            (ObjDict.cons resultL (Obj.dict res)
            (ObjDict.cons sourceL (Obj.str aiAgentL)
            (ObjDict.cons timestampL (Obj.str cfg.now) ObjDict.nil))))))
          let errObj := dictGetD errorKeyL (Obj.str []) res
          if pyTruthy errObj then
            match errObj with
            | Obj.str err => ⟨s2, PyResult.ok (bashResMsg out (some err)), [b1, b2], [post], []⟩
            | _ => ⟨s2, PyResult.raised, [b1, b2], [post], []⟩
          else ⟨s2, PyResult.ok (bashResMsg out none), [b1, b2], [post], []⟩
      | _ => ⟨s1, PyResult.raised, [b1], [post], []⟩
  | none => raisedOut sess

def record_finding_branch (sess : Session) (d : ObjDict) (cfg : CallCfg) : CallOut :=
  match dictGet severityL d, dictGet titleL d, dictGet descriptionL d with
  | some sevObj, some titleObj, some descObj =>
      let evObj := dictGetD evidenceL (Obj.str []) d
      let findingDict := Obj.dict
        (ObjDict.cons idL (Obj.str cfg.findingId)
        (ObjDict.cons severityL sevObj
        (ObjDict.cons titleL titleObj
        (ObjDict.cons descriptionL descObj
        (ObjDict.cons evidenceL evObj
        (ObjDict.cons timestampL (Obj.str cfg.now) ObjDict.nil))))))
      let s1 := { sess with findings := objSnoc sess.findings findingDict }
      let bc := Obj.dict
        (ObjDict.cons typeL (Obj.str newFindingL)
        (ObjDict.cons findingL findingDict
        (ObjDict.cons timestampL (Obj.str cfg.now) ObjDict.nil)))
      match sevObj with
      | Obj.str sev => ⟨s1, PyResult.ok (findingRecordedMsg sev titleObj), [bc], [], []⟩
      | _ => ⟨s1, PyResult.raised, [bc], [], []⟩
  | _, _, _ => raisedOut sess

def add_to_scope_branch (sess : Session) (d : ObjDict) (cfg : CallCfg)
    (orc : ExecOracle) : CallOut :=
  match dictGetD hostsKeyL (Obj.arr ObjList.nil) d with
  | Obj.arr hl =>
      match objListToStrs hl with
      | some hostsS =>
          let existing := sess.target_scope.map (fun h => (pyStrip h).map Char.toLower)
          let new_hosts := hostsS.filterMap (fun h =>
            let hs := pyStrip h
            if hs ≠ [] ∧ !existing.contains (hs.map Char.toLower) then some hs else none)
          if new_hosts = [] then
            ⟨sess, PyResult.ok (noNewHostsMsg hostsS.length), [], [], []⟩
          else
            let reasonObj := dictGetD reasonL (Obj.str toolDiscoveryL) d
            let bPend := Obj.dict
              (ObjDict.cons typeL (Obj.str scopeAddPendingL)
              (ObjDict.cons approvalIdL (Obj.str cfg.approvalId)
              (ObjDict.cons hostsKeyL (Obj.arr (strsToObjList new_hosts))
              (ObjDict.cons reasonL reasonObj
              (ObjDict.cons timestampL (Obj.str cfg.now) ObjDict.nil)))))
            match orc.scopeDecision with
            | none => ⟨sess, PyResult.ok (scopeTimeoutMsg new_hosts.length), [bPend], [], []⟩
            | some false =>
                ⟨sess, PyResult.ok (scopeRejectedMsg new_hosts.length new_hosts), [bPend], [], []⟩
            | some true =>
                let p := session_add_to_scope sess new_hosts
                if p.1 ≠ [] then
                  let bUpd := Obj.dict
                    (ObjDict.cons typeL (Obj.str scopeUpdatedL)
                    (ObjDict.cons addedL (Obj.arr (strsToObjList p.1))
                    (ObjDict.cons scopeKeyL (Obj.arr (strsToObjList p.2.target_scope))
                    (ObjDict.cons reasonL reasonObj
                    (ObjDict.cons timestampL (Obj.str cfg.now) ObjDict.nil)))))
                  ⟨p.2, PyResult.ok (scopeApprovedMsg p.1.length reasonObj p.1), [bPend, bUpd], [], []⟩
                else ⟨p.2, PyResult.ok allInScopeMsg, [bPend], [], []⟩
      | none => raisedOut sess
  | _ => raisedOut sess

/-- `PentestAgent._execute_tool_call(tool_name, tool_input)`: scope
check on the tokenized input first (a truthy extracted target outside
scope returns the violation string with no side effects), then
detokenization, then the five-way dispatch; any other name returns
"Unknown tool" with no side effects.  The `add_to_scope` approval
plumbing uses the spec-modelled session scope-merge above. -/
def execute_tool_call (sess : Session) (tool_name : Str) (tool_input : Obj)
    (cfg : CallCfg) (orc : ExecOracle) : CallOut :=
  let violation :=
    match extract_target tool_name tool_input with
    | some t => !t.isEmpty && !is_in_scope t sess.target_scope
    | none => false
  if violation then
    match extract_target tool_name tool_input with
    | some t => ⟨sess, PyResult.ok (scope_violation_msg t sess.target_scope), [], [], []⟩
    | none => raisedOut sess
  else
    let dIn := detokenize_obj sess.token_store tool_input
    if tool_name == execToolL then
      match dIn with
      | Obj.dict d => execute_tool_branch sess d cfg orc
      | _ => raisedOut sess
    else if tool_name == execBashL then
      match dIn with
      | Obj.dict d => execute_bash_branch sess d cfg orc
      | _ => raisedOut sess
    else if tool_name == recordFindingL then
      match dIn with
      | Obj.dict d => record_finding_branch sess d cfg
      | _ => raisedOut sess
    else if tool_name == readFileL then
      match dIn with
      | Obj.dict d =>
          (match dictGet pathKeyL d with
           | some pathObj =>
               ⟨sess,
                (if orc.fileCode = 200 then PyResult.ok orc.fileContent
                 else PyResult.ok (readErrMsg orc.fileCode)),
                [], [], [pyStr pathObj]⟩
           | none => raisedOut sess)
      | _ => raisedOut sess
    else if tool_name == addToScopeL then
      match dIn with
      | Obj.dict d => add_to_scope_branch sess d cfg orc
      | _ => raisedOut sess
    else ⟨sess, PyResult.ok unknownToolL, [], [], []⟩

/-! ## Approval endpoint (`POST /api/autonomous/approve`, main.py) -/

def stepIdL : Str := "step_id".toList

def approvedKeyL : Str := "approved".toList

def autoStepDecisionL : Str := "auto_step_decision".toList

def approvedRespS : Str := "approved".toList

def rejectedRespS : Str := "rejected".toList

/-- Responses of the approval endpoint (for an existing session). -/
inductive AResp where
  | okStatus (s : Str)
  | notFound
deriving DecidableEq

/-- `approve_step`: if the session's pending approval exists and its
`step_id` matches the request, overwrite `approved`, set `resolved`,
broadcast an `auto_step_decision`, and return the decision status;
otherwise 404.  (The session-existence 404 of the endpoint is outside
this session-level model.)  Returns the updated session, the broadcasts
emitted, and the response. -/
def approve_step (sess : Session) (step_id : Str) (approved : Bool) (now : Str) :
    Session × List Obj × AResp :=
  match sess.auto_pending_approval with
  | some p =>
      if p.step_id = step_id then
        let p' := { p with approved := some approved, resolved := true }
        let bc := Obj.dict
          (ObjDict.cons typeL (Obj.str autoStepDecisionL)
          (ObjDict.cons stepIdL (Obj.str step_id)
          (ObjDict.cons approvedKeyL (Obj.boolean approved)
          (ObjDict.cons timestampL (Obj.str now) ObjDict.nil))))
        ({ sess with auto_pending_approval := some p' }, [bc],
         AResp.okStatus (if approved then approvedRespS else rejectedRespS))
      else (sess, [], AResp.notFound)
  | none => (sess, [], AResp.notFound)

/-! ## Shared lemmas -/

theorem isPrefixOf_append_self (a b : Str) : a.isPrefixOf (a ++ b) = true := by
  induction a with
  | nil => simp [List.isPrefixOf]
  | cons c cs ih => simp [List.isPrefixOf, ih]

theorem objListToStrs_strsToObjList (l : List Str) :
    objListToStrs (strsToObjList l) = some l := by
  induction l with
  | nil => rfl
  | cons s rest ih => simp [strsToObjList, objListToStrs, ih]

theorem assocGet_assocSet_self {α : Type} (k : Str) (v : α) (l : List (Str × α)) :
    assocGet k (assocSet k v l) = some v := by
  induction l with
  | nil => simp [assocGet, assocSet]
  | cons p rest ih =>
      by_cases h : k = p.1
      · simp [assocSet, h, assocGet]
      · simp [assocSet, assocGet, h, ih]

theorem if_ofNat_neg_roundtrip (rc : Nat) :
    (if (Int.ofNat rc) < 0 then (none : Option Nat) else some (Int.ofNat rc).toNat) =
      some rc := by
  rw [Int.ofNat_eq_coe]
  have h : ¬ ((rc : Int) < 0) := by omega
  rw [if_neg h, Int.toNat_ofNat]

/-! ## Concrete inputs used by witnesses and counterexamples -/

def tok1 : Str := "[[_CRED_1_]]".toList

def tok2 : Str := "[[_CRED_2_]]".toList

def hunterV : Str := "hunter2".toList

def pwMsg : Str := "password=hunter2".toList

def pw1Out : Str := "password=[[_CRED_1_]]".toList

def pw2Out : Str := "password=[[_CRED_2_]]".toList

def msgS2 : Str := "password=[[hunter2]]".toList

def c1Vault : Vault := [(tok1, hunterV), (tok2, tok1)]

def c1Cmd : Str := "sshpass -p [[_CRED_1_]] ssh 10.0.0.5 [[_CRED_2_]]".toList

def c1Input : Obj := Obj.dict (ObjDict.cons commandL (Obj.str c1Cmd) ObjDict.nil)

def evilL : Str := "evil.com".toList

def exampleScopeL : Str := "example.com".toList

def nmapL : Str := "nmap".toList

def frobL : Str := "frobnicate".toList

def t1L : Str := "t1".toList

def f1L : Str := "f1".toList

def a1L : Str := "a1".toList

def ts0L : Str := "2026-01-01T00:00:00+00:00".toList

def wSess : Session :=
  { id := "sess00000001".toList
    name := "Acme external".toList
    target_scope := [exampleScopeL]
    notes := []
    client_id := none
    created_at := ts0L
    messages := ObjList.nil
    events := ObjList.nil
    findings := ObjList.nil
    auto_mode := false
    auto_objective := []
    auto_max_steps := 10
    auto_current_step := 0
    auto_pending_approval := none
    auto_user_messages := []
    token_store := []
    token_counter := 0 }

def wInput : Obj :=
  Obj.dict
    (ObjDict.cons toolKeyL (Obj.str nmapL)
    (ObjDict.cons parametersL
      (Obj.dict (ObjDict.cons targetL (Obj.str evilL) ObjDict.nil)) ObjDict.nil))

def wCfg : CallCfg := ⟨t1L, f1L, a1L, ts0L⟩

def wOrc : ExecOracle := ⟨ObjDict.nil, 200, [], none⟩

def oldContent : Str := "OLDSTATE".toList

def newContent : Str := "NEWCONTENT".toList

def jidL : Str := "job00000001".toList

def cronEveryFive : Str := "*/5 * * * *".toList

def cronJob : ScheduledJob :=
  { id := jidL
    session_id := wSess.id
    tool := nmapL
    parameters := Obj.dict ObjDict.nil
    schedule_type := cronL
    run_at := none
    cron_expr := some cronEveryFive
    label := []
    created_at := ts0L
    last_run := none
    next_run := none
    status := scheduledS
    run_count := 0
    created_by := none }

def tidL : Str := "abc12345".toList

def runTask : TaskRec :=
  { task_id := tidL
    tool := nmapL
    command := "nmap -sV example.com".toList
    status := runningS
    started_at := ts0L
    output := []
    error := []
    return_code := none
    pid := some 42
    finished_at := none }

def doneTask : TaskRec := { runTask with status := completedS, return_code := some 0 }

def stepIdV : Str := "step0001".toList

def pend0 : PendingApproval :=
  ⟨stepIdV, 1, "Run subfinder on example.com".toList, ObjList.nil, none, false⟩

def sessPend : Session := { wSess with auto_pending_approval := some pend0 }

/-! ## Claim theorems -/

/-- C3 counterexample: `Session._save` and `ScheduleManager._save`
write the target file directly (truncate-then-write), so a write that
fails partway destroys the previously persisted contents — here, a
failure after 3 characters leaves a 3-character prefix of the new
serialization instead of the old file; the spec-modelled temp+rename
write would have kept the old contents. -/
theorem c3_direct_write_counterexample :
    session_save_fs (some oldContent) newContent (WriteOutcome.failAfter 3) ≠ some oldContent ∧
    schedule_save_fs (some oldContent) newContent (WriteOutcome.failAfter 3) ≠ some oldContent ∧
    session_save_fs (some oldContent) newContent (WriteOutcome.failAfter 3) =
      some (newContent.take 3) ∧
    atomic_save_fs (some oldContent) newContent (WriteOutcome.failAfter 3) = some oldContent := by
  decide

/-- C3 (amended): every persistence write of the core opens the target
file directly and writes the serialization in place: on success the
file holds exactly the new content, but a write that fails after `k`
characters leaves the first `k` characters of the new content — the
previously persisted contents are not preserved (no temporary file, no
rename). -/
theorem c3_amended_direct_write (old content : Str) (k : Nat) :
    session_save_fs (some old) content WriteOutcome.ok = some content ∧
    schedule_save_fs (some old) content WriteOutcome.ok = some content ∧
    session_save_fs (some old) content (WriteOutcome.failAfter k) = some (content.take k) ∧
    schedule_save_fs (some old) content (WriteOutcome.failAfter k) = some (content.take k) ∧
    (content.take k ≠ old →
      session_save_fs (some old) content (WriteOutcome.failAfter k) ≠ some old) := by
  refine ⟨rfl, rfl, rfl, rfl, ?_⟩
  intro hne hEq
  exact hne (Option.some.inj hEq)

theorem c3_amended_witness :
    session_save_fs (some oldContent) newContent (WriteOutcome.failAfter 3) =
      some (newContent.take 3) ∧
    session_save_fs (some oldContent) newContent (WriteOutcome.failAfter 3) ≠ some oldContent :=
  ⟨(c3_amended_direct_write oldContent newContent 3).2.2.1,
   (c3_amended_direct_write oldContent newContent 3).2.2.2.2 (by decide)⟩

/-- C4: terminal task statuses are not one-way.  A running task killed
via the kill endpoint is marked `killed` (a terminal status, and the
endpoint reports it as such), but when the SIGTERMed subprocess then
exits, `run_tool_async`'s communicate-return path unconditionally
overwrites the record: exit code -15 relabels the task `failed`. -/
theorem c4_killed_relabelled_failed :
    (kill_task [(tidL, runTask)] tidL true).2 = KillResp.jsonStatus killedS ∧
    assocGet tidL (kill_task [(tidL, runTask)] tidL true).1 =
      some { runTask with status := killedS } ∧
    isTerminal killedS = true ∧
    (finish_exit { runTask with status := killedS } [] ("terminated".toList) (-15) ts0L).status
      = failedS ∧
    failedS ≠ killedS := by
  decide

/-- C5: the ingress tokenizer is not idempotent after one pass.  On
`password=hunter2` the first pass yields `password=[[_CRED_1_]]`; the
second pass re-matches the key/value credential pattern (whose `\S+`
value is now the minted token — only the explicit-span rule carries a
lookahead protecting tokens), mints `[[_CRED_2_]]` vaulting the literal
token string `[[_CRED_1_]]`, and returns a different text. -/
theorem c5_tokenizer_not_idempotent :
    (tokenize_input ⟨[], 0⟩ pwMsg).1 = pw1Out ∧
    (tokenize_input ⟨[], 0⟩ pwMsg).2.store = [(tok1, hunterV)] ∧
    (tokenize_input (tokenize_input ⟨[], 0⟩ pwMsg).2 (tokenize_input ⟨[], 0⟩ pwMsg).1).1 =
      pw2Out ∧
    (tokenize_input (tokenize_input ⟨[], 0⟩ pwMsg).2 (tokenize_input ⟨[], 0⟩ pwMsg).1).1 ≠
      (tokenize_input ⟨[], 0⟩ pwMsg).1 ∧
    (tokenize_input (tokenize_input ⟨[], 0⟩ pwMsg).2 (tokenize_input ⟨[], 0⟩ pwMsg).1).2.store =
      [(tok1, hunterV), (tok2, tok1)] := by
  decide

/-- C9: the kill endpoint is a pure observer except on a running task
with a live pid: for an existing task that is not running or has no
pid it returns the task's current status and mutates nothing, and for
an unknown task id it returns 404 and mutates nothing. -/
theorem c9_kill_noop_on_settled_tasks :
    (∀ (reg : List (Str × TaskRec)) (tid : Str) (t : TaskRec) (ok : Bool),
      assocGet tid reg = some t →
      (t.status ≠ runningS ∨ t.pid = none) →
      kill_task reg tid ok = (reg, KillResp.jsonStatus t.status)) ∧
    (∀ (reg : List (Str × TaskRec)) (tid : Str) (ok : Bool),
      assocGet tid reg = none →
      kill_task reg tid ok = (reg, KillResp.notFound)) := by
  constructor
  · intro reg tid t ok hget hcond
    unfold kill_task
    rw [hget]
    have hc : (t.status == runningS && pidTruthy t.pid) = false := by
      cases hcond with
      | inl h => simp [h]
      | inr h => simp [h, pidTruthy]
    simp [hc]
  · intro reg tid ok hget
    unfold kill_task
    rw [hget]

theorem c9_kill_noop_witness :
    kill_task [(tidL, doneTask)] tidL true =
      ([(tidL, doneTask)], KillResp.jsonStatus doneTask.status) ∧
    kill_task [] tidL true = ([], KillResp.notFound) :=
  ⟨c9_kill_noop_on_settled_tasks.1 [(tidL, doneTask)] tidL doneTask true (by decide)
     (Or.inl (by decide)),
   c9_kill_noop_on_settled_tasks.2 [] tidL true rfl⟩


/-- The C1 claim as a predicate: for every vault pair whose token
occurs in the tool-use input, the detokenized parameters contain the
vaulted value and no longer contain the token. -/
def credential_restored (store : Vault) (inp : Obj) : Prop :=
  ∀ p ∈ store, occursObj p.1 inp = true →
    occursObj p.2 (detokenize_obj store inp) = true ∧
    occursObj p.1 (detokenize_obj store inp) = false

instance credential_restored_dec (store : Vault) (inp : Obj) :
    Decidable (credential_restored store inp) :=
  List.decidableBAll _ store

/-- C1 counterexample: a vault reachable by a single
`tokenize_input` call on the operator message `password=[[hunter2]]`
holds `[[_CRED_2_]] ↦ [[_CRED_1_]]` (the kv rule re-tokenizes the
token minted by the explicit rule within the same pass).  On a tool
input containing both tokens, sequential replacement reintroduces
`[[_CRED_1_]]` after it was already substituted, so the detokenized
parameters still contain that token. -/
theorem c1_detokenize_counterexample :
    (tokenize_input ⟨[], 0⟩ msgS2).2.store = c1Vault ∧
    occursObj tok1 c1Input = true ∧
    occursObj tok1 (detokenize_obj c1Vault c1Input) = true ∧
    ¬ credential_restored c1Vault c1Input := by
  decide

/-- C1 (amended): detokenization restores a credential exactly when
token values cannot interfere: if a parameter string field is exactly
the vault token `tk` with vaulted value `cv`, no earlier vault token
occurs in `tk`, no later vault token occurs in `cv`, and `tk` does not
occur in `cv`, then `detokenize_obj` maps that field to exactly `cv`
(which differs from `tk`), so the executor receives the credential and
not the token.  (The counterexample shows the unrestricted claim fails
when a vaulted value itself contains a token.) -/
theorem c1_amended_detokenize_exact_token (v1 v2 : Vault) (tk cv k : Str)
    (htk : tk ≠ [])
    (h1 : ∀ p ∈ v1, occursB p.1 tk = false)
    (h2 : ∀ p ∈ v2, occursB p.1 cv = false)
    (h3 : occursB tk cv = false) :
    detokenize_obj (v1 ++ (tk, cv) :: v2)
        (Obj.dict (ObjDict.cons k (Obj.str tk) ObjDict.nil)) =
      Obj.dict (ObjDict.cons k (Obj.str cv) ObjDict.nil) ∧ cv ≠ tk := by
  have hs : detokenize (v1 ++ (tk, cv) :: v2) tk = cv := by
    rw [detokenize_append]
    rw [detokenize_of_not_occurs v1 tk h1]
    show detokenize v2 (replaceAll tk cv tk) = cv
    rw [replaceAll_self cv htk]
    exact detokenize_of_not_occurs v2 cv h2
  constructor
  · simp [detokenize_obj, detokenizeDict, hs]
  · intro hEq
    rw [hEq, occursB_self htk] at h3
    simp at h3

theorem c1_amended_witness :
    detokenize_obj [(tok1, hunterV)]
        (Obj.dict (ObjDict.cons commandL (Obj.str tok1) ObjDict.nil)) =
      Obj.dict (ObjDict.cons commandL (Obj.str hunterV) ObjDict.nil) ∧ hunterV ≠ tok1 :=
  c1_amended_detokenize_exact_token [] [] tok1 hunterV commandL (by decide)
    (by intro p hp; cases hp) (by intro p hp; cases hp) (by decide)

/-- C7 counterexample: one successful fire of a cron job does return
it to `scheduled` with `last_run` set, but `run_count` climbs from 0
to 2 — `update_status` increments it once when the job is marked
`running` (with `last_run=now`) and once more when it is marked
`scheduled` (again with `last_run=now`) — not by exactly one. -/
theorem c7_run_count_counterexample :
    ((assocGet jidL (execute_scheduled_job [(jidL, cronJob)] jidL true true ts0L t1L).jobs).map
        ScheduledJob.run_count = some 2) ∧
    ((assocGet jidL (execute_scheduled_job [(jidL, cronJob)] jidL true true ts0L t1L).jobs).map
        ScheduledJob.status = some scheduledS) ∧
    ((assocGet jidL (execute_scheduled_job [(jidL, cronJob)] jidL true true ts0L t1L).jobs).map
        ScheduledJob.last_run = some (some ts0L)) ∧
    (execute_scheduled_job [(jidL, cronJob)] jidL true true ts0L t1L).statusTrace =
      [runningS, scheduledS] ∧
    some 2 ≠ some (cronJob.run_count + 1) := by
  decide

/-- C7 (amended): when a scheduled job fires with its session present
and the executor submission succeeding, it transitions
scheduled → running → scheduled for a cron job (completed for a
one-shot job), `last_run` is set to the fire time — but `run_count` is
incremented by exactly two per fire (once entering `running`, once at
completion), not by one. -/
theorem c7_amended_job_fire (jobs : List (Str × ScheduledJob)) (job_id : Str)
    (job : ScheduledJob) (now task_id : Str)
    (hget : assocGet job_id jobs = some job)
    (hnd : job.status ≠ disabledS)
    (hnc : job.status ≠ completedS)
    (hnow : now ≠ []) :
    (execute_scheduled_job jobs job_id true true now task_id).statusTrace =
      [runningS, if job.schedule_type == cronL then scheduledS else completedS] ∧
    assocGet job_id (execute_scheduled_job jobs job_id true true now task_id).jobs =
      some { job with
             status := if job.schedule_type == cronL then scheduledS else completedS
             last_run := some now
             run_count := job.run_count + 2 } := by
  have hnowE : strTruthy (some now) = true := by
    cases now with
    | nil => exact absurd rfl hnow
    | cons c cs => rfl
  have hcond : (job.status == disabledS || job.status == completedS) = false := by
    simp [hnd, hnc]
  have h1 : update_status jobs job_id runningS (some now) none =
      assocSet job_id
        { job with status := runningS, last_run := some now, run_count := job.run_count + 1 }
        jobs := by
    unfold update_status
    rw [hget]
    simp [hnowE]
  have hget2 : assocGet job_id (assocSet job_id
      { job with status := runningS, last_run := some now, run_count := job.run_count + 1 }
      jobs) =
      some { job with status := runningS, last_run := some now,
                      run_count := job.run_count + 1 } :=
    assocGet_assocSet_self _ _ _
  have h2 : update_status
      (assocSet job_id
        { job with status := runningS, last_run := some now, run_count := job.run_count + 1 }
        jobs)
      job_id (if job.schedule_type == cronL then scheduledS else completedS)
      (some now) none =
      assocSet job_id
        { job with
          status := if job.schedule_type == cronL then scheduledS else completedS
          last_run := some now
          run_count := job.run_count + 2 }
        (assocSet job_id
          { job with status := runningS, last_run := some now, run_count := job.run_count + 1 }
          jobs) := by
    unfold update_status
    rw [hget2]
    simp [hnowE]
  unfold execute_scheduled_job
  rw [hget]
  simp only [hcond, Bool.false_eq_true, if_false, Bool.not_true, if_true, ite_true, ite_false]
  simp only [h1, h2]
  exact ⟨trivial, assocGet_assocSet_self _ _ _⟩

theorem c7_amended_witness :
    (execute_scheduled_job [(jidL, cronJob)] jidL true true ts0L t1L).statusTrace =
      [runningS, if cronJob.schedule_type == cronL then scheduledS else completedS] ∧
    assocGet jidL (execute_scheduled_job [(jidL, cronJob)] jidL true true ts0L t1L).jobs =
      some { cronJob with
             status := if cronJob.schedule_type == cronL then scheduledS else completedS
             last_run := some ts0L
             run_count := cronJob.run_count + 2 } :=
  c7_amended_job_fire [(jidL, cronJob)] jidL cronJob ts0L t1L rfl (by decide)
    (by decide) (by decide)

/-- C8 counterexample: the approval endpoint does not enforce a single
writer.  The pending record stays attached to the session after
resolution, and `approve_step` checks only the `step_id`, so a second
POST for the same step succeeds (it is neither a no-op nor a 404): it
flips the recorded decision from approve to reject and emits a second
`auto_step_decision` broadcast. -/
theorem c8_second_approval_flips :
    ((approve_step sessPend stepIdV true ts0L).2.2 = AResp.okStatus approvedRespS) ∧
    ((approve_step sessPend stepIdV true ts0L).1.auto_pending_approval.map
        PendingApproval.resolved = some true) ∧
    ((approve_step sessPend stepIdV true ts0L).1.auto_pending_approval.map
        PendingApproval.approved = some (some true)) ∧
    ((approve_step (approve_step sessPend stepIdV true ts0L).1 stepIdV false ts0L).2.2 =
        AResp.okStatus rejectedRespS) ∧
    ((approve_step (approve_step sessPend stepIdV true ts0L).1 stepIdV false
        ts0L).1.auto_pending_approval.map PendingApproval.approved = some (some false)) ∧
    ((approve_step (approve_step sessPend stepIdV true ts0L).1 stepIdV false
        ts0L).2.1.length = 1) := by
  refine ⟨rfl, rfl, rfl, rfl, rfl, rfl⟩

/-- C8 (amended): while the session's pending-approval record carries
step id `sid` — including after it has been resolved, since nothing
clears it — every approval POST for `sid` overwrites the decision,
marks the record resolved, emits one `auto_step_decision` broadcast,
and returns the decision status; a POST returns 404 (leaving the
session unchanged and broadcasting nothing) exactly when no pending
record exists or the step id differs. -/
theorem c8_amended_approval_overwrites (sess : Session) (p : PendingApproval)
    (sid : Str) (b1 b2 : Bool) (now1 now2 : Str)
    (hp : sess.auto_pending_approval = some p)
    (hid : p.step_id = sid) :
    ((approve_step sess sid b1 now1).2.2 =
        AResp.okStatus (if b1 then approvedRespS else rejectedRespS)) ∧
    ((approve_step sess sid b1 now1).1.auto_pending_approval =
        some { p with approved := some b1, resolved := true }) ∧
    ((approve_step sess sid b1 now1).2.1.length = 1) ∧
    ((approve_step (approve_step sess sid b1 now1).1 sid b2 now2).2.2 =
        AResp.okStatus (if b2 then approvedRespS else rejectedRespS)) ∧
    ((approve_step (approve_step sess sid b1 now1).1 sid b2 now2).1.auto_pending_approval =
        some { p with approved := some b2, resolved := true }) ∧
    ((approve_step (approve_step sess sid b1 now1).1 sid b2 now2).2.1.length = 1) ∧
    (∀ (s2 : Session) (sid2 : Str) (bb : Bool) (nn : Str),
      (∀ q, s2.auto_pending_approval = some q → q.step_id ≠ sid2) →
      approve_step s2 sid2 bb nn = (s2, [], AResp.notFound)) := by
  have e1 : approve_step sess sid b1 now1 =
      ({ sess with auto_pending_approval := some { p with approved := some b1, resolved := true } },
       [Obj.dict
          (ObjDict.cons typeL (Obj.str autoStepDecisionL)
          (ObjDict.cons stepIdL (Obj.str sid)
          (ObjDict.cons approvedKeyL (Obj.boolean b1)
          (ObjDict.cons timestampL (Obj.str now1) ObjDict.nil))))],
       AResp.okStatus (if b1 then approvedRespS else rejectedRespS)) := by
    unfold approve_step
    rw [hp]
    simp [hid]
  have e2 : approve_step
      { sess with auto_pending_approval := some { p with approved := some b1, resolved := true } }
      sid b2 now2 =
      ({ sess with auto_pending_approval := some { p with approved := some b2, resolved := true } },
       [Obj.dict
          (ObjDict.cons typeL (Obj.str autoStepDecisionL)
          (ObjDict.cons stepIdL (Obj.str sid)
          (ObjDict.cons approvedKeyL (Obj.boolean b2)
          (ObjDict.cons timestampL (Obj.str now2) ObjDict.nil))))],
       AResp.okStatus (if b2 then approvedRespS else rejectedRespS)) := by
    unfold approve_step
    simp [hid]
  refine ⟨?_, ?_, ?_, ?_, ?_, ?_, ?_⟩
  · rw [e1]
  · rw [e1]
  · rw [e1]; rfl
  · rw [e1, e2]
  · rw [e1, e2]
  · rw [e1, e2]; rfl
  · intro s2 sid2 bb nn hq
    unfold approve_step
    cases hs2 : s2.auto_pending_approval with
    | none => rfl
    | some q =>
        have hne : ¬ (q.step_id = sid2) := hq q hs2
        simp [hne]

theorem c8_amended_witness :
    ((approve_step sessPend stepIdV true ts0L).2.2 =
        AResp.okStatus (if true then approvedRespS else rejectedRespS)) ∧
    ((approve_step (approve_step sessPend stepIdV true ts0L).1 stepIdV false
        ts0L).1.auto_pending_approval =
        some { pend0 with approved := some false, resolved := true }) :=
  ⟨(c8_amended_approval_overwrites sessPend pend0 stepIdV true false ts0L ts0L rfl rfl).1,
   (c8_amended_approval_overwrites sessPend pend0 stepIdV true false ts0L ts0L rfl rfl).2.2.2.2.1⟩

/-- C2: scope enforcement in the agent.  (i) If a (non-empty) target
is extracted from the tool-use input and is out of scope, the call
returns the scope-violation string — whose head is exactly
`[SCOPE VIOLATION] Target <t> is outside the defined engagement scope.`
— with the session unchanged, nothing broadcast, no event logged, and
no request posted to the executor.  (ii) Consequently any call that
did post to the executor either had no extractable target, or an empty
extracted string, or an in-scope target.  (Python truthiness treats an
extracted empty string as "no target"; the hypothesis `t ≠ []` makes
that explicit.) -/
theorem c2_scope_violation_blocks :
    (∀ (sess : Session) (tool_name : Str) (tool_input : Obj) (cfg : CallCfg)
        (orc : ExecOracle) (t : Str),
      extract_target tool_name tool_input = some t → t ≠ [] →
      is_in_scope t sess.target_scope = false →
      execute_tool_call sess tool_name tool_input cfg orc =
        ⟨sess, PyResult.ok (scope_violation_msg t sess.target_scope), [], [], []⟩ ∧
      (scope_violation_head t).isPrefixOf (scope_violation_msg t sess.target_scope) = true) ∧
    (∀ (sess : Session) (tool_name : Str) (tool_input : Obj) (cfg : CallCfg)
        (orc : ExecOracle) (t : Str),
      extract_target tool_name tool_input = some t →
      (execute_tool_call sess tool_name tool_input cfg orc).posts ≠ [] →
      t = [] ∨ is_in_scope t sess.target_scope = true) := by
  constructor
  · intro sess tool_name tool_input cfg orc t hext ht hscope
    have hE : t.isEmpty = false := by
      cases t with
      | nil => exact absurd rfl ht
      | cons c cs => rfl
    constructor
    · unfold execute_tool_call
      rw [hext]
      simp [hE, hscope]
    · have : scope_violation_msg t sess.target_scope =
          scope_violation_head t ++
            ('\n' :: ("Allowed scope: ".toList ++ scope_str_of sess.target_scope) ++ '\n' ::
              "Tool execution was blocked. Only test targets within the defined scope.".toList) := by
        simp [scope_violation_msg]
      rw [this]
      exact isPrefixOf_append_self _ _
  · intro sess tool_name tool_input cfg orc t hext hposts
    by_cases hE : t.isEmpty = true
    · left
      cases t with
      | nil => rfl
      | cons c cs => simp [List.isEmpty] at hE
    · by_cases hs : is_in_scope t sess.target_scope = true
      · right; exact hs
      · exfalso
        apply hposts
        have hE2 : t.isEmpty = false := by
          cases hb : t.isEmpty with
          | true => exact absurd hb hE
          | false => rfl
        have hs2 : is_in_scope t sess.target_scope = false := by
          cases hb : is_in_scope t sess.target_scope with
          | true => exact absurd hb hs
          | false => rfl
        unfold execute_tool_call
        rw [hext]
        simp [hE2, hs2]

theorem c2_scope_violation_witness :
    execute_tool_call wSess execToolL wInput wCfg wOrc =
      ⟨wSess, PyResult.ok (scope_violation_msg evilL wSess.target_scope), [], [], []⟩ ∧
    (scope_violation_head evilL).isPrefixOf
      (scope_violation_msg evilL wSess.target_scope) = true :=
  c2_scope_violation_blocks.1 wSess execToolL wInput wCfg wOrc evilL (by decide) (by decide)
    (by decide)

/-- C10: dispatching a tool name outside the five exposed tools
returns exactly "Unknown tool" and has no effect at all: the session
(messages, events, findings, scope, vault) is unchanged, nothing is
broadcast, and no executor post or file read is issued.  (No target is
ever extracted for such a name, so the scope check cannot fire.) -/
theorem c10_unknown_tool_no_effects (sess : Session) (tool_name : Str) (tool_input : Obj)
    (cfg : CallCfg) (orc : ExecOracle)
    (h1 : tool_name ≠ execToolL) (h2 : tool_name ≠ execBashL)
    (h3 : tool_name ≠ recordFindingL) (h4 : tool_name ≠ readFileL)
    (h5 : tool_name ≠ addToScopeL) :
    execute_tool_call sess tool_name tool_input cfg orc =
      ⟨sess, PyResult.ok unknownToolL, [], [], []⟩ := by
  have hext : extract_target tool_name tool_input = none := by
    unfold extract_target
    simp [h1, h2]
  unfold execute_tool_call
  rw [hext]
  simp [h1, h2, h3, h4, h5]

theorem c10_unknown_tool_witness :
    execute_tool_call wSess frobL wInput wCfg wOrc =
      ⟨wSess, PyResult.ok unknownToolL, [], [], []⟩ :=
  c10_unknown_tool_no_effects wSess frobL wInput wCfg wOrc (by decide) (by decide)
    (by decide) (by decide) (by decide)

/-- C6: serialization round-trips.  Reconstructing a session from its
full persisted dict restores exactly the persistent projection (id,
name, target_scope, notes, client_id, created_at, messages, events,
findings) — volatile autonomous state and the token vault reset to
constructor defaults — and reconstructing a scheduled job from its
dict restores the job exactly; hence a reload after restart preserves
messages, events, findings, scope, notes and ids. -/
theorem natCast_not_lt_zero (rc : Nat) : ((rc : Int) < 0) = False :=
  eq_false (by omega)

theorem c6_serialization_round_trip :
    (∀ (s : Session) (now : Str),
      (from_dict now (to_full_dict s)).map session_persist = some (session_persist s)) ∧
    (∀ (j : ScheduledJob) (now : Str),
      job_from_dict now (job_to_dict j) = some j) := by
  constructor
  · intro s now
    obtain ⟨idv, nm, ts, nts, cid, cat, msgs, evs, fnds, am, ao, ams, acs, apa, aum, tks, tkc⟩ := s
    cases cid <;>
      simp +decide [from_dict, to_full_dict, getStrReq, getStrD, getArrD, getOptStrD,
        dictGet, optStrObj, objListToStrs_strsToObjList, session_persist]
  · intro j now
    obtain ⟨idv, sid, tl, params, sty, rat, cex, lbl, cat, lrn, nrn, st, rc, cby⟩ := j
    cases rat <;> cases cex <;> cases cby <;> cases lrn <;> cases nrn <;>
      simp +decide [job_from_dict, job_to_dict, getStrReq, getStrD, getArrD, getOptStrD,
        getNatD, dictGet, dictGetD, optStrObj, if_ofNat_neg_roundtrip, natCast_not_lt_zero]
